import Mathlib

/-!
# terraform-provider-s3: shallow embedding of the resource handlers

The Go handlers of `s3/` are embedded as pure functions.  A handler receives
the host-side resource data, the storage client (an oracle answering each API
call from the history of calls made so far) and returns the calls it issued,
the resource data it leaves behind and the Go `error` it returns.
-/

namespace S3

/-! ## Go values -/

/-- Go maps with string keys: finitely many entries, one per key. -/
abbrev GoMap (V : Type) : Type := AList (fun _ : String => V)

/-- Equality of Go maps as `reflect.DeepEqual` sees it: the same entries, in any order. -/
def GoMap.DeepEqual {V : Type} [DecidableEq V] (a b : GoMap V) : Bool :=
  decide (a.entries.Perm b.entries)

/-- Dynamic values that may sit behind an `interface{}` entry of a map. -/
inductive Elem where
  | str (s : String)
  | int (n : Int)
  | bool (b : Bool)
  | nil
  deriving DecidableEq, Repr

/-- Name of the dynamic type, as the Go runtime prints it. -/
def Elem.typeName : Elem → String
  | .str _ => "string"
  | .int _ => "int"
  | .bool _ => "bool"
  | .nil => "nil"

/-- The unchecked type assertion `v.(string)`: a non-string value panics. -/
def Elem.assertString : Elem → Except String String
  | .str s => .ok s
  | e => .error ("interface conversion: interface \x7b\x7d is " ++ e.typeName ++ ", not string")

/-- The value of a string element (the empty string for any other element). -/
def Elem.strVal : Elem → String
  | .str s => s
  | _ => ""

/-- The shapes of an `interface{}` argument that `MakeUserTags` switches on. -/
inductive Dyn where
  | mapIface (m : GoMap Elem)
  | mapString (m : GoMap String)
  | slice (xs : List Elem)
  | scalar (e : Elem)
  deriving DecidableEq

/-- Values of Go's `error` type built by `errors.Wrap`. -/
inductive Error where
  | base (msg : String)
  | wrap (cause : Error) (msg : String)
  deriving DecidableEq, Repr

/-! ## tags.go -/

/-- One iteration of `for k, v := range value { tags[k] = v.(string) }`. -/
def tagStep (acc : Except String (GoMap String)) (kv : Sigma (fun _ : String => Elem)) :
    Except String (GoMap String) :=
  match acc with
  | .error p => .error p
  | .ok tags =>
    match kv.2.assertString with
    | .error p => .error p
    | .ok s => .ok (tags.insert kv.1 s)

/-- The function `MakeUserTags` of tags.go; `.error` is a runtime panic. -/
def MakeUserTags (i : Dyn) : Except String (GoMap String) :=
  match i with
  | .mapIface value => value.entries.foldl tagStep (.ok ∅)
  | .mapString value =>
    .ok (value.entries.foldl (fun tags kv => tags.insert kv.1 kv.2) ∅)
  | _ => .ok ∅

/-! ## resource_s3_object.go: the parse helpers -/

/-- Modelled from the spec: `minio.LegalHoldStatus.IsValid` of the storage SDK
(not part of this repository) validates against a fixed enumeration, `ON`
(`LegalHoldEnabled`) and `OFF` (`LegalHoldDisabled`). -/
def LegalHoldStatus.IsValid (r : String) : Bool :=
  r == "ON" || r == "OFF"

/-- Modelled from the spec: `minio.RetentionMode.IsValid` of the storage SDK
(not part of this repository) validates against a fixed enumeration,
`GOVERNANCE` (`Governance`) and `COMPLIANCE` (`Compliance`). -/
def RetentionMode.IsValid (r : String) : Bool :=
  r == "GOVERNANCE" || r == "COMPLIANCE"

def parseObjectLockLegalHoldStatus (v : String) : String :=
  let status := v
  if !LegalHoldStatus.IsValid status then "" else status

/-- The returned pointer is modelled as an option: `none` is `nil`. -/
def parseObjectLockMode (v : String) : Option String :=
  let mode := v
  if !RetentionMode.IsValid mode then none else some mode

/-! ## Time -/

/-- An instant as `time.Time` holds it: nanoseconds since the zero time
(January 1, year 1, 00:00:00 UTC) and the zone offset in seconds. -/
structure Time where
  nsec : Int
  offset : Int
  deriving DecidableEq, Repr

/-- The method `Time.IsZero`: the zero time instant. -/
def Time.IsZero (t : Time) : Bool := t.nsec == 0

/-- The method `Time.Before`: comparison of instants. -/
def Time.Before (t u : Time) : Bool := decide (t.nsec < u.nsec)

/-- The functions of Go's `time` package the handlers call. -/
structure TimeLib where
  /-- The call `time.Parse(time.RFC3339, v)`; `none` is a parse error. -/
  parseRFC3339 : String → Option Time
  /-- The method `Time.String`. -/
  timeString : Time → String

/-- The returned pointer is modelled as an option: `none` is `nil`. -/
def parseObjectLockDeadline (tl : TimeLib) (v : String) : Option Time :=
  match tl.parseRFC3339 v with
  | none => none
  | some t => some t

/-! ## Resource data of the plugin host -/

/-- Resource data as handed to a handler: `old` is the prior state, `new` the
planned values (what `GetChange` and `HasChange` compare), `cur` what `Get`
reads (the planned values overlaid with the handler's `Set` writes), `id` the
resource identity. -/
structure ResourceData (A : Type) where
  old : A
  new : A
  cur : A
  id : String
  deriving DecidableEq

def ResourceData.SetId {A : Type} (d : ResourceData A) (v : String) : ResourceData A :=
  { d with id := v }

/-- Attributes of `s3_bucket_object`, by schema key. -/
structure ObjectAttrs where
  bucket : String := ""
  key : String := ""
  storage_class : String := ""
  source : String := ""
  content : String := ""
  cache_control : String := ""
  content_type : String := ""
  content_encoding : String := ""
  content_language : String := ""
  content_disposition : String := ""
  tags : GoMap String := ∅
  object_lock_legal_hold_status : String := ""
  object_lock_mode : String := ""
  object_lock_retain_until_date : String := ""
  deriving DecidableEq

/-- The string attribute stored under a schema key; a key outside the schema
(such as `website_redirect`) reads as the zero value. -/
def ObjectAttrs.str (a : ObjectAttrs) (key : String) : String :=
  match key with
  | "bucket" => a.bucket
  | "key" => a.key
  | "storage_class" => a.storage_class
  | "source" => a.source
  | "content" => a.content
  | "cache_control" => a.cache_control
  | "content_type" => a.content_type
  | "content_encoding" => a.content_encoding
  | "content_language" => a.content_language
  | "content_disposition" => a.content_disposition
  | "object_lock_legal_hold_status" => a.object_lock_legal_hold_status
  | "object_lock_mode" => a.object_lock_mode
  | "object_lock_retain_until_date" => a.object_lock_retain_until_date
  | _ => ""

/-- Writing a string attribute; only the keys the handlers write are needed,
any other key leaves the attributes as they are. -/
def ObjectAttrs.setStr (a : ObjectAttrs) (key : String) (v : String) : ObjectAttrs :=
  match key with
  | "content_type" => { a with content_type := v }
  | "object_lock_mode" => { a with object_lock_mode := v }
  | "object_lock_retain_until_date" => { a with object_lock_retain_until_date := v }
  | _ => a

abbrev ObjectData : Type := ResourceData ObjectAttrs

/-- The read `d.Get(key).(string)`. -/
def ObjectData.Get (d : ObjectData) (key : String) : String := d.cur.str key

/-- The read `d.GetOk(key)`: the value, and whether it is set to a non-zero value. -/
def ObjectData.GetOk (d : ObjectData) (key : String) : String × Bool :=
  (d.cur.str key, d.cur.str key != "")

/-- The read `d.GetChange(key)` on a string attribute. -/
def ObjectData.GetChange (d : ObjectData) (key : String) : String × String :=
  (d.old.str key, d.new.str key)

/-- The test `d.HasChange(key)`: old and new value differ (`reflect.DeepEqual`). -/
def ObjectData.HasChange (d : ObjectData) (key : String) : Bool :=
  if key = "tags" then !(GoMap.DeepEqual d.old.tags d.new.tags)
  else d.old.str key != d.new.str key

def ObjectData.Set (d : ObjectData) (key : String) (v : String) : ObjectData :=
  { d with cur := d.cur.setStr key v }

def ObjectData.SetTags (d : ObjectData) (v : GoMap String) : ObjectData :=
  { d with cur := { d.cur with tags := v } }

/-- A `TypeMap` attribute as the host hands it over: a `map[string]interface{}`
whose values are strings. -/
def GoMap.toIface (m : GoMap String) : GoMap Elem :=
  ⟨m.entries.map (fun kv => ⟨kv.1, Elem.str kv.2⟩), by
    have h := m.nodupKeys
    simp only [List.NodupKeys, List.keys, List.map_map] at h ⊢
    exact h⟩

/-! ## The storage client -/

/-- The body handed to the upload call. -/
inductive Body where
  | nil
  | file (path : String)
  | bytes (content : String)
  deriving DecidableEq, Repr

structure PutObjectOptions where
  UserTags : Option (GoMap String) := none
  ContentType : String := ""
  ContentEncoding : String := ""
  ContentDisposition : String := ""
  ContentLanguage : String := ""
  CacheControl : String := ""
  Mode : Option String := none
  RetainUntilDate : Option Time := none
  LegalHold : String := ""
  StorageClass : String := ""
  WebsiteRedirectLocation : String := ""
  deriving DecidableEq

structure PutObjectRetentionOptions where
  GovernanceBypass : Bool := false
  Mode : Option String := none
  RetainUntilDate : Option Time := none
  deriving DecidableEq

structure ObjectInfo where
  ContentType : String
  deriving DecidableEq

/-- The calls of the storage API, with their arguments. -/
inductive Call where
  | MakeBucket (bucket region : String)
  | MakeBucketWithObjectLock (bucket region : String)
  | BucketExists (bucket : String)
  | EnableVersioning (bucket : String)
  | DisableVersioning (bucket : String)
  | PutObject (bucket key : String) (body : Body) (size : Int) (opts : PutObjectOptions)
  | StatObject (bucket key : String)
  | GetObjectRetention (bucket key versionID : String)
  | GetObjectTagging (bucket key : String)
  | PutObjectRetention (bucket key : String) (opts : PutObjectRetentionOptions)
  | PutObjectTagging (bucket key : String) (tags : GoMap String)
  deriving DecidableEq

/-- The upload call. -/
def Call.isUpload : Call → Bool
  | .PutObject .. => true
  | _ => false

/-- The retention-update call. -/
def Call.isRetentionUpdate : Call → Bool
  | .PutObjectRetention .. => true
  | _ => false

/-- The tagging-update call. -/
def Call.isTaggingUpdate : Call → Bool
  | .PutObjectTagging .. => true
  | _ => false

/-- The enable- or disable-versioning call. -/
def Call.isVersioning : Call → Bool
  | .EnableVersioning _ => true
  | .DisableVersioning _ => true
  | _ => false

/-- The storage client `*minio.Client` as an oracle: each answer may depend on
the calls made before (first argument) and on the call itself. -/
structure Client where
  /-- Calls of which only the error is used. -/
  exec : List Call → Call → Option Error
  /-- The existence flag and the error of `BucketExists`. -/
  BucketExists : List Call → String → Bool × Option Error
  StatObject : List Call → String → String → Except Error ObjectInfo
  /-- On success the mode and the deadline (both pointers non-nil). -/
  GetObjectRetention : List Call → String → String → String → Except Error (String × Time)
  GetObjectTagging : List Call → String → String → Except Error (GoMap String)

/-- The operating-system services `resourceS3BucketObjectPut` uses. -/
structure Host where
  /-- The function `homedir.Expand`. -/
  homedirExpand : String → Except Error String
  /-- The function `os.Open`: `none` when the file opens. -/
  osOpen : String → Option Error

/-- What a handler returns to the host: Go's `error` (or a runtime panic). -/
inductive Result where
  | nil
  | err (e : Error)
  | panic (msg : String)
  deriving DecidableEq, Repr

/-- A handler run: the calls it issued, in order, the resource data it leaves
and its result. -/
structure Outcome (A : Type) where
  calls : List Call
  d : ResourceData A
  result : Result
  deriving DecidableEq

/-- The run preceded by the calls `pre`. -/
def Outcome.after {A : Type} (pre : List Call) (o : Outcome A) : Outcome A :=
  { o with calls := pre ++ o.calls }

/-! ## resource_s3_object.go: the handlers -/

def resourceS3BucketObjectRead (tl : TimeLib) (client : Client) (hist : List Call)
    (d : ObjectData) : Outcome ObjectAttrs :=
  let bucket := d.Get "bucket"
  let key := d.Get "key"
  match client.StatObject hist bucket key with
  | .error err => ⟨[.StatObject bucket key], d, .err err⟩
  | .ok stat =>
    let d := d.Set "content_type" stat.ContentType
    match client.GetObjectRetention (hist ++ [.StatObject bucket key]) bucket key "" with
    | .error err =>
      ⟨[.StatObject bucket key, .GetObjectRetention bucket key ""], d,
        .err (.wrap err ("Failed to retrieve retention info for S3 Bucket (" ++ bucket ++
          ") Object (" ++ key ++ ")"))⟩
    | .ok (mode, deadline) =>
      let d := d.Set "object_lock_mode" mode
      let d := if !deadline.IsZero then
          d.Set "object_lock_retain_until_date" (tl.timeString deadline)
        else d
      match client.GetObjectTagging
          (hist ++ [.StatObject bucket key, .GetObjectRetention bucket key ""]) bucket key with
      | .error err =>
        ⟨[.StatObject bucket key, .GetObjectRetention bucket key "",
            .GetObjectTagging bucket key], d,
          .err (.wrap err ("Failed to list tags for S3 Bucket (" ++ bucket ++
            ") Object (" ++ key ++ ")"))⟩
      | .ok tags =>
        ⟨[.StatObject bucket key, .GetObjectRetention bucket key "",
            .GetObjectTagging bucket key], d.SetTags tags, .nil⟩

/-- The body of the upload: the file at `source`, else the inline `content`,
else no body. -/
def putBody (host : Host) (d : ObjectData) : Except Error Body :=
  if (d.GetOk "source").2 then
    let source := (d.GetOk "source").1
    match host.homedirExpand source with
    | .error err => .error (.wrap err ("Error expanding homedir in source (" ++ source ++ ")"))
    | .ok path =>
      match host.osOpen path with
      | some err =>
        .error (.wrap err ("Error opening S3 bucket object source (" ++ path ++ ")"))
      | none => .ok (.file path)
  else if (d.GetOk "content").2 then
    .ok (.bytes (d.GetOk "content").1)
  else .ok .nil

/-- The upload options assembled from the attributes that are set; `.error` is
a panic of `MakeUserTags`. -/
def putOptions (tl : TimeLib) (d : ObjectData) : Except String PutObjectOptions :=
  let options : PutObjectOptions := {}
  let options := if (d.GetOk "storage_class").2 then
    { options with StorageClass := (d.GetOk "storage_class").1 } else options
  let options := if (d.GetOk "cache_control").2 then
    { options with CacheControl := (d.GetOk "cache_control").1 } else options
  let options := if (d.GetOk "content_type").2 then
    { options with ContentType := (d.GetOk "content_type").1 } else options
  let options := if (d.GetOk "content_encoding").2 then
    { options with ContentEncoding := (d.GetOk "content_encoding").1 } else options
  let options := if (d.GetOk "content_language").2 then
    { options with ContentLanguage := (d.GetOk "content_language").1 } else options
  let options := if (d.GetOk "content_disposition").2 then
    { options with ContentDisposition := (d.GetOk "content_disposition").1 } else options
  let tagged : Except String PutObjectOptions :=
    if d.cur.tags.entries.length > 0 then
      match MakeUserTags (.mapIface d.cur.tags.toIface) with
      | .error p => .error p
      | .ok t => .ok { options with UserTags := some t }
    else .ok options
  match tagged with
  | .error p => .error p
  | .ok options =>
    let options := if (d.GetOk "website_redirect").2 then
      { options with WebsiteRedirectLocation := (d.GetOk "website_redirect").1 } else options
    let options := if (d.GetOk "object_lock_legal_hold_status").2 then
      { options with LegalHold :=
          parseObjectLockLegalHoldStatus (d.GetOk "object_lock_legal_hold_status").1 }
      else options
    let options := if (d.GetOk "object_lock_mode").2 then
      { options with Mode := parseObjectLockMode (d.GetOk "object_lock_mode").1 } else options
    let options := if (d.GetOk "object_lock_retain_until_date").2 then
      { options with RetainUntilDate :=
          parseObjectLockDeadline tl (d.GetOk "object_lock_retain_until_date").1 }
      else options
    .ok options

def resourceS3BucketObjectPut (host : Host) (tl : TimeLib) (client : Client)
    (hist : List Call) (d : ObjectData) : Outcome ObjectAttrs :=
  match putBody host d with
  | .error err => ⟨[], d, .err err⟩
  | .ok body =>
    let bucket := d.Get "bucket"
    let key := d.Get "key"
    match putOptions tl d with
    | .error p => ⟨[], d, .panic p⟩
    | .ok options =>
      match client.exec hist (.PutObject bucket key body (-1) options) with
      | some err =>
        ⟨[.PutObject bucket key body (-1) options], d,
          .err (.wrap err ("Failed to put object in S3 bucket (" ++ bucket ++ "): " ++ key))⟩
      | none =>
        let d := d.SetId key
        (resourceS3BucketObjectRead tl client
          (hist ++ [.PutObject bucket key body (-1) options]) d).after
          [.PutObject bucket key body (-1) options]

/-- The attributes whose change requires a new object version. -/
def reputKeys : List String :=
  ["storage_class", "source", "content", "cache_control", "content_type",
   "content_encoding", "content_language", "content_disposition"]

/-- The options of the retention-update call. -/
def retentionOptions (tl : TimeLib) (d : ObjectData) : PutObjectRetentionOptions :=
  let opts : PutObjectRetentionOptions := {}
  let opts := { opts with
    RetainUntilDate := parseObjectLockDeadline tl (d.Get "object_lock_retain_until_date") }
  let opts := { opts with Mode := parseObjectLockMode (d.Get "object_lock_mode") }
  -- Bypass required to lower or clear retain-until date.
  if d.HasChange "object_lock_retain_until_date" then
    let o := parseObjectLockDeadline tl (d.GetChange "object_lock_retain_until_date").1
    let n := parseObjectLockDeadline tl (d.GetChange "object_lock_retain_until_date").2
    match n, o with
    | none, _ => { opts with GovernanceBypass := true }
    | some n, some o => if n.Before o then { opts with GovernanceBypass := true } else opts
    | some _, none => opts
  else opts

/-- Whether `object_lock_mode` or `object_lock_retain_until_date` changed. -/
def ObjectData.retentionChanged (d : ObjectData) : Bool :=
  d.HasChange "object_lock_mode" || d.HasChange "object_lock_retain_until_date"

/-- The retention-update call of an update. -/
def retentionCall (tl : TimeLib) (d : ObjectData) : Call :=
  .PutObjectRetention (d.Get "bucket") (d.Get "key") (retentionOptions tl d)

/-- The part of the update after the retention step: tags, then Read. -/
def updateTagsThenRead (tl : TimeLib) (client : Client) (hist : List Call)
    (d : ObjectData) : Outcome ObjectAttrs :=
  let bucket := d.Get "bucket"
  let key := d.Get "key"
  if d.HasChange "tags" then
    match MakeUserTags (.mapIface d.new.tags.toIface) with
    | .error p => ⟨[], d, .panic p⟩
    | .ok t =>
      match client.exec hist (.PutObjectTagging bucket key t) with
      | some err => ⟨[.PutObjectTagging bucket key t], d, .err (.wrap err "Failed to update tags")⟩
      | none =>
        (resourceS3BucketObjectRead tl client (hist ++ [.PutObjectTagging bucket key t]) d).after
          [.PutObjectTagging bucket key t]
  else resourceS3BucketObjectRead tl client hist d

def resourceS3BucketObjectUpdate (host : Host) (tl : TimeLib) (client : Client)
    (hist : List Call) (d : ObjectData) : Outcome ObjectAttrs :=
  -- Changes to any of these attributes requires creation of a new object
  -- version (if bucket is versioned).
  if reputKeys.any (fun key => d.HasChange key) then
    resourceS3BucketObjectPut host tl client hist d
  else
    if d.retentionChanged then
      match client.exec hist (retentionCall tl d) with
      | some err =>
        ⟨[retentionCall tl d], d, .err (.wrap err "Failed putting S3 object lock retention")⟩
      | none =>
        (updateTagsThenRead tl client (hist ++ [retentionCall tl d]) d).after [retentionCall tl d]
    else updateTagsThenRead tl client hist d

/-! ## resource_s3_bucket.go -/

/-- The `versioning` block. -/
structure VersioningBlock where
  enabled : Bool := false
  deriving DecidableEq, Repr

/-- Attributes of `s3_bucket`, by schema key; `versioning` is a list of at
most one block. -/
structure BucketAttrs where
  bucket : String := ""
  region : String := ""
  versioning : List VersioningBlock := []
  object_lock_enabled : Bool := false
  deriving DecidableEq

abbrev BucketData : Type := ResourceData BucketAttrs

/-- The read `d.GetOk(key)` on whether the attribute is set to a non-zero value, for an
arbitrary key; a key that names no attribute is not set. -/
def BucketData.GetOk (d : BucketData) (key : String) : Bool :=
  match key with
  | "bucket" => d.cur.bucket != ""
  | "region" => d.cur.region != ""
  | "versioning" => !d.cur.versioning.isEmpty
  | "object_lock_enabled" => d.cur.object_lock_enabled
  | _ => false

/-- The write `d.Set(key, v)` of a string value for an arbitrary key: it is written to a
string attribute; for any other key `Set` fails and writes nothing (the
handlers drop its error). -/
def BucketData.Set (d : BucketData) (key : String) (v : String) : BucketData :=
  match key with
  | "bucket" => { d with cur := { d.cur with bucket := v } }
  | "region" => { d with cur := { d.cur with region := v } }
  | _ => d

/-- The test `d.HasChange("versioning")`. -/
def BucketData.HasChangeVersioning (d : BucketData) : Bool :=
  d.old.versioning != d.new.versioning

def resourceS3BucketRead (client : Client) (hist : List Call) (d : BucketData) :
    Outcome BucketAttrs :=
  let bucket := d.id
  let exists_ := (client.BucketExists hist bucket).1
  if !exists_ then
    ⟨[.BucketExists bucket], d.SetId "", .nil⟩
  else
    let d := if !d.GetOk bucket then d.Set bucket d.id else d
    ⟨[.BucketExists bucket], d, .nil⟩

/-- The versioning call `resourceS3BucketVersioningUpdate` issues. -/
def versioningCall (d : BucketData) : Call :=
  let bucket := d.cur.bucket
  let v := d.cur.versioning
  let setVersioning :=
    match v with
    | c :: _ => if c.enabled then true else false
    | [] => false
  if setVersioning then .EnableVersioning bucket else .DisableVersioning bucket

def resourceS3BucketVersioningUpdate (client : Client) (hist : List Call) (d : BucketData) :
    Option Error :=
  client.exec hist (versioningCall d)

def resourceS3BucketUpdate (client : Client) (hist : List Call) (d : BucketData) :
    Outcome BucketAttrs :=
  if d.HasChangeVersioning then
    match resourceS3BucketVersioningUpdate client hist d with
    | some err => ⟨[versioningCall d], d, .err err⟩
    | none => (resourceS3BucketRead client (hist ++ [versioningCall d]) d).after [versioningCall d]
  else resourceS3BucketRead client hist d

/-- The create-bucket call `resourceS3BucketCreate` issues for bucket name
`bucket`. -/
def createCall (d : BucketData) (bucket region : String) : Call :=
  if d.cur.object_lock_enabled then .MakeBucketWithObjectLock bucket region
  else .MakeBucket bucket region

/-- The handler of bucket creation: `region` is the region of the configured
client, `uniqueId` the name `resource.UniqueId()` generates. -/
def resourceS3BucketCreate (client : Client) (region : String) (uniqueId : String)
    (hist : List Call) (d : BucketData) : Outcome BucketAttrs :=
  let bucket := if d.GetOk "bucket" then d.cur.bucket else uniqueId
  let d := d.Set "bucket" bucket
  let call := createCall d bucket region
  match client.exec hist call with
  | some err =>
    ⟨[call], d,
      .err (.wrap err ("Unable to create bucket [" ++ bucket ++ "] in region [" ++ region ++ "]"))⟩
  | none =>
    -- Assign the bucket name as the resource ID
    let d := d.SetId bucket
    (resourceS3BucketUpdate client (hist ++ [call]) d).after [call]

/-! ## config.go and provider.go -/

structure Config where
  AccessKey : String := ""
  SecretKey : String := ""
  CredsFilename : String := ""
  Profile : String := ""
  Token : String := ""
  Region : String := ""
  Endpoint : String := ""
  MaxRetries : Int := 0
  ForcePathStyle : Bool := false
  AwsSignatureVersion : String := ""
  TlsEnabled : Bool := false
  TlsSkipVerify : Bool := false
  TlsCertPath : String := ""
  terraformVersion : String := ""
  deriving DecidableEq, Repr

/-- A credential value of the SDK: `credentials.Value`. -/
structure CredValue where
  AccessKeyID : String
  SecretAccessKey : String
  SessionToken : String
  deriving DecidableEq, Repr

/-- What client construction reads from outside the configuration. -/
structure ClientEnv where
  /-- What `EnvProvider` retrieves from the environment variables. -/
  envProvider : Except Error CredValue
  /-- What `SharedCredentialsProvider` retrieves for a file name and profile. -/
  sharedProvider : String → String → Except Error CredValue
  /-- The error, if any, of the client constructors for an endpoint and TLS flag. -/
  endpointError : String → Bool → Option Error
  /-- The function `x509.SystemCertPool`. -/
  systemCertPool : Option (List String)
  /-- The function `ioutil.ReadFile`. -/
  readFile : String → Except Error String
  /-- The certificates `AppendCertsFromPEM` decodes from PEM data. -/
  pemCerts : String → List String
  /-- The function `homedir.Expand`. -/
  homedirExpand : String → Except Error String

/-- Modelled from the spec: the static credential provider of the SDK
(`credentials.StaticProvider`, not part of this repository) yields the explicit
values when they are non-empty. -/
def staticProvider (v : CredValue) : Except Error CredValue :=
  if v.AccessKeyID = "" ∨ v.SecretAccessKey = "" then
    .error (.base "EmptyStaticCreds: static credentials are empty")
  else .ok v

/-- Modelled from the spec: the credential chain of the SDK
(`credentials.NewChainCredentials` and `Get`, not part of this repository)
tries its providers in order and the first one yielding credentials wins; when
none does, resolution fails. -/
def chainGet : List (Except Error CredValue) → Except Error CredValue
  | [] => .error (.base "NoCredentialProviders: no valid providers in chain")
  | .ok v :: _ => .ok v
  | .error _ :: ps => chainGet ps

/-- The request-signing variant, by the constructor used. -/
inductive Signer where
  | NewV4
  | NewV2
  | New
  deriving DecidableEq, Repr

structure Transport where
  InsecureSkipVerify : Bool
  RootCAs : List String
  deriving DecidableEq, Repr

/-- The constructed `*minio.Client`: what it was constructed with. -/
structure MinioClient where
  signer : Signer
  endpoint : String
  accessKeyID : String
  secretAccessKey : String
  secure : Bool
  transport : Option Transport
  deriving DecidableEq, Repr

structure S3Client where
  client : MinioClient
  region : String
  terraformVersion : String
  deriving DecidableEq, Repr

def Config.getTlsConfig (env : ClientEnv) (c : Config) : Transport :=
  let rootCAs := match env.systemCertPool with
    | some pool => pool
    | none => []
  let certs := match env.readFile c.TlsCertPath with
    | .ok data => data
    | .error _ => ""
  let rootCAs := rootCAs ++ env.pemCerts certs
  { InsecureSkipVerify := c.TlsSkipVerify, RootCAs := rootCAs }

/-- The credentials `Config.Client` resolves. -/
def Config.creds (env : ClientEnv) (c : Config) : Except Error CredValue :=
  chainGet [
    staticProvider { AccessKeyID := c.AccessKey, SecretAccessKey := c.SecretKey,
                     SessionToken := c.Token },
    env.envProvider,
    env.sharedProvider c.CredsFilename c.Profile ]

def Config.Client (env : ClientEnv) (c : Config) : Except Error S3Client :=
  match c.creds env with
  | .error err => .error err
  | .ok cred =>
    let signer := match c.AwsSignatureVersion with
      | "v4" => Signer.NewV4
      | "v2" => Signer.NewV2
      | _ => Signer.New
    match env.endpointError c.Endpoint c.TlsEnabled with
    | some err => .error err
    | none =>
      let client : MinioClient :=
        { signer := signer, endpoint := c.Endpoint, accessKeyID := cred.AccessKeyID,
          secretAccessKey := cred.SecretAccessKey, secure := c.TlsEnabled, transport := none }
      let client := { client with transport := some (c.getTlsConfig env) }
      .ok { region := c.Region, client := client, terraformVersion := c.terraformVersion }

/-- The provider configuration the host supplies, by schema key. -/
structure ProviderData where
  access_key : String := ""
  secret_key : String := ""
  shared_credentials_file : String := ""
  profile : String := ""
  token : String := ""
  region : String := ""
  endpoint : String := ""
  max_retries : Int := 5
  force_path_style : Bool := false
  aws_signature_version : String := "v4"
  tls_enabled : Bool := true
  tls_skip_verify : Bool := false
  tls_cert_path : String := ""
  deriving DecidableEq, Repr

/-- The `Config` that `providerConfigure` constructs and calls `Client` on. -/
def providerConfig (env : ClientEnv) (d : ProviderData) (terraformVersion : String) :
    Except Error Config :=
  let config : Config := {
    AccessKey := d.access_key
    SecretKey := d.secret_key
    Profile := d.profile
    Region := d.region
    Endpoint := d.endpoint
    MaxRetries := d.max_retries
    ForcePathStyle := d.force_path_style
    AwsSignatureVersion := d.aws_signature_version
    TlsEnabled := d.tls_enabled
    TlsSkipVerify := d.tls_skip_verify
    TlsCertPath := d.tls_cert_path
    terraformVersion := terraformVersion }
  match env.homedirExpand d.shared_credentials_file with
  | .error err => .error err
  | .ok credsPath => .ok { config with CredsFilename := credsPath }

def providerConfigure (env : ClientEnv) (d : ProviderData) (terraformVersion : String) :
    Except Error S3Client :=
  match providerConfig env d terraformVersion with
  | .error err => .error err
  | .ok config => config.Client env

/-! ## The time package of the Go standard library -/

/-- The decimal digit of `n % 10`. -/
def digitChar (n : Nat) : Char :=
  match n % 10 with
  | 0 => '0'
  | 1 => '1'
  | 2 => '2'
  | 3 => '3'
  | 4 => '4'
  | 5 => '5'
  | 6 => '6'
  | 7 => '7'
  | 8 => '8'
  | _ => '9'

/-- The decimal digits of `n`, most significant first; `fuel` bounds the
number of digits. -/
def decimalAux : Nat → Nat → List Char
  | 0, n => [digitChar n]
  | fuel + 1, n =>
    if n < 10 then [digitChar n] else decimalAux fuel (n / 10) ++ [digitChar n]

/-- The decimal digits of `n`. -/
def decimal (n : Nat) : List Char := decimalAux n n

/-- Modelled from the spec: `appendInt` of the Go `time` package (not part of
this repository): the decimal form of `x`, zero-padded to `width` digits, with
a leading minus sign when negative. -/
def appendInt (x : Int) (width : Nat) : List Char :=
  (if x < 0 then ['-'] else []) ++
    List.replicate (width - (decimal x.natAbs).length) '0' ++ decimal x.natAbs

/-- The civil date (year, month, day) of the day that lies `days` days after
January 1 of year 1, in the proleptic Gregorian calendar. -/
def civilFromDays (days : Int) : Int × Nat × Nat :=
  let z := days + 306
  let era := z / 146097
  let doe := (z % 146097).toNat
  let yoe := (doe - doe / 1460 + doe / 36524 - doe / 146096) / 365
  let doy := doe - (365 * yoe + yoe / 4 - yoe / 100)
  let mp := (5 * doy + 2) / 153
  let d := doy - (153 * mp + 2) / 5 + 1
  let m := if mp < 10 then mp + 3 else mp - 9
  ((yoe : Int) + era * 400 + (if m ≤ 2 then 1 else 0), m, d)

/-- The number of days from January 1 of year 1 to the given civil date. -/
def daysFromCivil (year : Int) (month day : Nat) : Int :=
  let y := if month ≤ 2 then year - 1 else year
  let era := y / 400
  let yoe := (y % 400).toNat
  let mp := if month > 2 then month - 3 else month + 9
  let doy := (153 * mp + 2) / 5 + day - 1
  let doe := yoe * 365 + yoe / 4 - yoe / 100 + doy
  era * 146097 + (doe : Int) - 306

/-- The length of a month: `daysIn` of the Go `time` package. -/
def daysIn (month : Nat) (year : Int) : Nat :=
  if month = 2 then
    if year % 4 = 0 ∧ (year % 100 ≠ 0 ∨ year % 400 = 0) then 29 else 28
  else if month = 4 ∨ month = 6 ∨ month = 9 ∨ month = 11 then 30
  else 31

/-- The numeric zone `-0700` of an offset in seconds. -/
def numTZ (offset : Int) : List Char :=
  let zone := offset.natAbs / 60
  (if offset ≤ -60 then ['-'] else ['+']) ++ appendInt (zone / 60) 2 ++ appendInt (zone % 60) 2

/-- The fractional second `.999999999` of a nanosecond count: nine digits with
the trailing zeros trimmed, nothing at all when the count is zero. -/
def formatNano (nanosec : Nat) : List Char :=
  let trimmed := ((appendInt nanosec 9).reverse.dropWhile (fun c => c == '0')).reverse
  if trimmed.isEmpty then [] else '.' :: trimmed

/-- The date, clock and numeric zone of `Time.String`, up to the blank before
the zone abbreviation. -/
def Time.stamp (t : Time) : List Char :=
  let secs := t.nsec / 1000000000 + t.offset
  let nanosec := (t.nsec % 1000000000).toNat
  let date := civilFromDays (secs / 86400)
  let clock := (secs % 86400).toNat
  appendInt date.1 4 ++ ['-'] ++ appendInt date.2.1 2 ++ ['-'] ++ appendInt date.2.2 2 ++
    [' '] ++ appendInt (clock / 3600) 2 ++ [':'] ++ appendInt (clock % 3600 / 60) 2 ++ [':'] ++
    appendInt (clock % 60) 2 ++ formatNano nanosec ++ [' '] ++ numTZ t.offset ++ [' ']

/-- The zone abbreviation `Time.String` prints: `UTC` for the UTC location, the
numeric zone for a zone that has an offset but no name. -/
def Time.zoneAbbrev (t : Time) : List Char :=
  if t.offset = 0 then ['U', 'T', 'C'] else numTZ t.offset

/-- Modelled from the spec: the string form of a deadline is `Time.String` of
the Go standard library (not part of this repository), which formats with the
layout `2006-01-02 15:04:05.999999999 -0700 MST`. -/
def Time.toGoString (t : Time) : String :=
  String.mk (t.stamp ++ t.zoneAbbrev)

/-- The value of a decimal digit. -/
def digitVal (c : Char) : Option Nat :=
  if 48 ≤ c.toNat ∧ c.toNat ≤ 57 then some (c.toNat - 48) else none

/-- The number read by `getnum(s, true)`: exactly two digits. -/
def getnum2 (a b : Char) : Option Nat :=
  match digitVal a, digitVal b with
  | some x, some y => some (x * 10 + y)
  | _, _ => none

/-- The number read by `getnum(s, false)`: one digit, or two when a second
digit follows. -/
def getnum (s : List Char) : Option (Nat × List Char) :=
  match s with
  | a :: b :: rest =>
    match digitVal a, digitVal b with
    | some x, some y => some (x * 10 + y, rest)
    | some x, none => some (x, b :: rest)
    | none, _ => none
  | [a] =>
    match digitVal a with
    | some x => some (x, [])
    | none => none
  | [] => none

/-- The number written by a list of digits. -/
def digitsValue (ds : List Char) : Nat :=
  ds.foldl (fun acc c => acc * 10 + (digitVal c).getD 0) 0

/-- The fractional second that may follow the seconds: a period or comma and
digits, of which the first nine count; the nanoseconds and the rest. -/
def parseFraction (value : List Char) : Nat × List Char :=
  match value with
  | c :: d :: rest =>
    if (c = '.' ∨ c = ',') ∧ (digitVal d).isSome then
      let digits := (d :: rest).takeWhile (fun x => (digitVal x).isSome)
      let used := digits.take 9
      (digitsValue used * 10 ^ (9 - used.length),
        (d :: rest).dropWhile (fun x => (digitVal x).isSome))
    else (0, value)
  | _ => (0, value)

/-- The zone `Z07:00`: `Z`, or a sign, two digits of hours, a colon and two
digits of minutes, which must end the value; the offset in seconds. -/
def parseZone (value : List Char) : Option Int :=
  match value with
  | ['Z'] => some 0
  | [sign, h1, h2, colon, m1, m2] =>
    if colon = ':' then
      match getnum2 h1 h2, getnum2 m1 m2 with
      | some hr, some mm =>
        if hr > 24 ∨ mm > 60 then none
        else if sign = '+' then some (((hr * 60 + mm) * 60 : Nat) : Int)
        else if sign = '-' then some (-(((hr * 60 + mm) * 60 : Nat) : Int))
        else none
      | _, _ => none
    else none
  | _ => none

/-- The clock and zone after the `T`, for a date already read. -/
def parseClock (year month day : Nat) (value : List Char) : Option Time :=
  match getnum value with
  | none => none
  | some (hour, value) =>
    match value with
    | c1 :: m1 :: m2 :: c2 :: s1 :: s2 :: value =>
      if c1 = ':' ∧ c2 = ':' then
        match getnum2 m1 m2, getnum2 s1 s2 with
        | some min, some sec =>
          let frac := parseFraction value
          match parseZone frac.2 with
          | none => none
          | some zoneOffset =>
            if month = 0 ∨ 12 < month ∨ 24 ≤ hour ∨ 60 ≤ min ∨ 60 ≤ sec then none
            else if day < 1 ∨ day > daysIn month year then none
            else
              let secs := daysFromCivil year month day * 86400 +
                ((hour * 3600 + min * 60 + sec : Nat) : Int) - zoneOffset
              some { nsec := secs * 1000000000 + (frac.1 : Int), offset := zoneOffset }
        | _, _ => none
      else none
    | _ => none

/-- The parse of a value with layout `2006-01-02T15:04:05Z07:00`: a year of
four digits, month and day of two digits each, then `T`, the clock and the
zone. -/
def parseRFC3339Chars (value : List Char) : Option Time :=
  match value with
  | y1 :: y2 :: y3 :: y4 :: c1 :: m1 :: m2 :: c2 :: d1 :: d2 :: c3 :: rest =>
    if c1 = '-' ∧ c2 = '-' ∧ c3 = 'T' then
      match getnum2 y1 y2, getnum2 y3 y4, getnum2 m1 m2, getnum2 d1 d2 with
      | some yh, some yl, some month, some day => parseClock (yh * 100 + yl) month day rest
      | _, _, _, _ => none
    else none
  | _ => none

/-- Modelled from the spec: the attribute is an RFC 3339 timestamp; this is
`time.Parse(time.RFC3339, v)` of the Go standard library (not part of this
repository); `none` is a parse error. -/
def timeParseRFC3339 (v : String) : Option Time :=
  parseRFC3339Chars v.data

/-- The time package of the Go standard library. -/
def goTime : TimeLib where
  parseRFC3339 := timeParseRFC3339
  timeString := Time.toGoString

/-! ## Sample inputs -/

/-- A time library that reads two RFC 3339 deadlines. -/
def sampleTime : TimeLib where
  parseRFC3339 s :=
    if s = "2030-01-01T00:00:00Z" then some ⟨64029052800000000000, 0⟩
    else if s = "2031-01-01T00:00:00Z" then some ⟨64060588800000000000, 0⟩
    else none
  timeString t :=
    if t.nsec = 64029052800000000000 then "2030-01-01 00:00:00 +0000 UTC"
    else if t.nsec = 64060588800000000000 then "2031-01-01 00:00:00 +0000 UTC"
    else "0001-01-01 00:00:00 +0000 UTC"

/-- A host on which every path expands to itself and every file opens. -/
def sampleHost : Host where
  homedirExpand s := .ok s
  osOpen _ := none

/-- A storage service on which every call succeeds. -/
def sampleClient : Client where
  exec _ _ := none
  BucketExists _ _ := (true, none)
  StatObject _ _ _ := .ok ⟨"text/plain"⟩
  GetObjectRetention _ _ _ _ := .ok ("GOVERNANCE", ⟨64029052800000000000, 0⟩)
  GetObjectTagging _ _ _ := .ok ∅

/-- A storage service that rejects the retention update. -/
def retentionDenied : Client :=
  { sampleClient with
    exec := fun _ c => if c.isRetentionUpdate then some (.base "Access Denied.") else none }

/-- A storage service that holds the object under retention until
2031-01-01T00:00:00Z. -/
def retainedUntil2031 : Client :=
  { sampleClient with
    GetObjectRetention := fun _ _ _ _ => .ok ("GOVERNANCE", ⟨64060588800000000000, 0⟩) }

/-- A storage service on which the object cannot be found. -/
def objectMissing : Client :=
  { sampleClient with
    StatObject := fun _ _ _ => .error (.base "The specified key does not exist.") }

/-- An object whose retention mode and tags are both planned to change. -/
def modeAndTagsChange : ObjectData where
  old := { bucket := "b", key := "k", content := "hello", content_type := "text/plain",
           object_lock_mode := "GOVERNANCE" }
  new := { bucket := "b", key := "k", content := "hello", content_type := "text/plain",
           object_lock_mode := "COMPLIANCE",
           tags := AList.singleton "env" "prod" }
  cur := { bucket := "b", key := "k", content := "hello", content_type := "text/plain",
           object_lock_mode := "COMPLIANCE",
           tags := AList.singleton "env" "prod" }
  id := "k"

/-- An object whose retention deadline is planned to be lowered by a year. -/
def deadlineLowered : ObjectData where
  old := { bucket := "b", key := "k", content := "hello", content_type := "text/plain",
           object_lock_mode := "GOVERNANCE",
           object_lock_retain_until_date := "2031-01-01T00:00:00Z" }
  new := { bucket := "b", key := "k", content := "hello", content_type := "text/plain",
           object_lock_mode := "GOVERNANCE",
           object_lock_retain_until_date := "2030-01-01T00:00:00Z" }
  cur := { bucket := "b", key := "k", content := "hello", content_type := "text/plain",
           object_lock_mode := "GOVERNANCE",
           object_lock_retain_until_date := "2030-01-01T00:00:00Z" }
  id := "k"

/-- An object whose state holds the deadline 2031-01-01T00:00:00Z as Read
stored it, and whose deadline is planned to be lowered by a year. -/
def deadlineLoweredAfterRead : ObjectData where
  old := { bucket := "b", key := "k", content := "hello", content_type := "text/plain",
           object_lock_mode := "GOVERNANCE",
           object_lock_retain_until_date := "2031-01-01 00:00:00 +0000 UTC" }
  new := { bucket := "b", key := "k", content := "hello", content_type := "text/plain",
           object_lock_mode := "GOVERNANCE",
           object_lock_retain_until_date := "2030-01-01T00:00:00Z" }
  cur := { bucket := "b", key := "k", content := "hello", content_type := "text/plain",
           object_lock_mode := "GOVERNANCE",
           object_lock_retain_until_date := "2030-01-01T00:00:00Z" }
  id := "k"

/-- An object that is in place unchanged. -/
def objectInPlace : ObjectData where
  old := { bucket := "b", key := "k", content := "hello", content_type := "text/plain" }
  new := { bucket := "b", key := "k", content := "hello", content_type := "text/plain" }
  cur := { bucket := "b", key := "k", content := "hello", content_type := "text/plain" }
  id := "k"

/-- A bucket to create, with object lock and versioning enabled. -/
def lockedBucket : BucketData where
  old := {}
  new := { bucket := "logs", versioning := [{ enabled := true }], object_lock_enabled := true }
  cur := { bucket := "logs", versioning := [{ enabled := true }], object_lock_enabled := true }
  id := ""

/-- A storage service that rejects the creation of buckets. -/
def createDenied : Client :=
  { sampleClient with
    exec := fun _ c =>
      match c with
      | .MakeBucket _ _ => some (.base "Access Denied.")
      | .MakeBucketWithObjectLock _ _ => some (.base "Access Denied.")
      | _ => none }

/-- An environment in which the environment variables and the shared
credentials file both hold credentials of their own. -/
def sampleEnv : ClientEnv where
  envProvider := .ok ⟨"ENVKEY", "ENVSECRET", ""⟩
  sharedProvider _ _ := .ok ⟨"FILEKEY", "FILESECRET", ""⟩
  endpointError _ _ := none
  systemCertPool := some []
  readFile _ := .error (.base "open : no such file or directory")
  pemCerts _ := []
  homedirExpand s := .ok s

/-- A configuration with explicit static credentials. -/
def staticConfig : Config :=
  { AccessKey := "AK", SecretKey := "SK", Region := "us-east-1",
    Endpoint := "s3.example.com", AwsSignatureVersion := "v4", TlsEnabled := true }

/-- A provider configuration with temporary security credentials. -/
def temporaryCredentials : ProviderData :=
  { access_key := "AK", secret_key := "SK", token := "SESSION", region := "us-east-1",
    endpoint := "s3.example.com" }

/-! ## Properties -/

/-! ### Tag maps -/

theorem foldl_insert_lookup {V : Type} (f : V → String)
    (l : List (Sigma (fun _ : String => V))) (hl : l.NodupKeys) (acc : GoMap String)
    (k : String) :
    (l.foldl (fun tags kv => tags.insert kv.1 (f kv.2)) acc).lookup k =
      match l.dlookup k with
      | some v => some (f v)
      | none => acc.lookup k := by
  induction l generalizing acc with
  | nil => simp
  | cons x xs ih =>
    obtain ⟨a, b⟩ := x
    obtain ⟨hx, hxs⟩ := List.nodupKeys_cons.mp hl
    rw [List.foldl_cons, ih hxs]
    by_cases hk : k = a
    · subst hk
      have hnone : xs.dlookup k = none := List.dlookup_eq_none.mpr hx
      simp [hnone, List.dlookup_cons_eq]
    · rw [List.dlookup_cons_ne _ _ hk]
      cases hd : xs.dlookup k with
      | some v => simp
      | none => simp [AList.lookup_insert_ne hk]

theorem foldl_tagStep_error (l : List (Sigma (fun _ : String => Elem))) (p : String) :
    l.foldl tagStep (.error p) = .error p := by
  induction l with
  | nil => rfl
  | cons x xs ih => simpa [tagStep] using ih

theorem foldl_tagStep_strings (l : List (Sigma (fun _ : String => Elem)))
    (hl : ∀ kv ∈ l, ∃ s, kv.2 = Elem.str s) (acc : GoMap String) :
    l.foldl tagStep (.ok acc) =
      .ok (l.foldl (fun tags kv => tags.insert kv.1 (Elem.strVal kv.2)) acc) := by
  induction l generalizing acc with
  | nil => rfl
  | cons x xs ih =>
    obtain ⟨s, hs⟩ := hl x (List.mem_cons_self _ _)
    have hstep : tagStep (.ok acc) x = .ok (acc.insert x.1 (Elem.strVal x.2)) := by
      simp [tagStep, hs, Elem.assertString, Elem.strVal]
    rw [List.foldl_cons, hstep, ih (fun kv hkv => hl kv (List.mem_cons_of_mem _ hkv))]
    rfl

theorem foldl_tagStep_non_string (l : List (Sigma (fun _ : String => Elem)))
    (hl : ∃ kv ∈ l, ∀ s, kv.2 ≠ Elem.str s) (acc : Except String (GoMap String)) :
    ∃ p, l.foldl tagStep acc = .error p := by
  induction l generalizing acc with
  | nil => simp at hl
  | cons x xs ih =>
    rw [List.foldl_cons]
    by_cases hx : ∀ s, x.2 ≠ Elem.str s
    · have hstep : ∃ p, tagStep acc x = .error p := by
        cases acc with
        | error p => exact ⟨p, rfl⟩
        | ok tags =>
          cases hv : x.2 with
          | str s => exact absurd hv (hx s)
          | int n => simp [tagStep, hv, Elem.assertString]
          | bool b => simp [tagStep, hv, Elem.assertString]
          | nil => simp [tagStep, hv, Elem.assertString]
      obtain ⟨p, hp⟩ := hstep
      exact ⟨p, by rw [hp, foldl_tagStep_error]⟩
    · obtain ⟨kv, hkv, hns⟩ := hl
      rcases List.mem_cons.mp hkv with h | h
      · exact absurd (h ▸ hns) hx
      · exact ih ⟨kv, h, hns⟩ _

theorem MakeUserTags_toIface (m : GoMap String) :
    ∃ t, MakeUserTags (.mapIface m.toIface) = .ok t ∧ ∀ k, t.lookup k = m.lookup k := by
  have hall : ∀ kv ∈ m.toIface.entries, ∃ s, kv.2 = Elem.str s := by
    intro kv hkv
    simp only [GoMap.toIface, List.mem_map] at hkv
    obtain ⟨a, _, rfl⟩ := hkv
    exact ⟨a.2, rfl⟩
  refine ⟨_, foldl_tagStep_strings _ hall ∅, fun k => ?_⟩
  rw [foldl_insert_lookup Elem.strVal _ m.toIface.nodupKeys]
  have hmap : ∀ l : List (Sigma (fun _ : String => String)),
      (l.map (fun kv => (⟨kv.1, Elem.str kv.2⟩ : Sigma (fun _ : String => Elem)))).dlookup k =
        (l.dlookup k).map Elem.str := by
    intro l
    induction l with
    | nil => rfl
    | cons x xs ih =>
      obtain ⟨a, b⟩ := x
      by_cases hk : k = a
      · subst hk; simp [List.dlookup_cons_eq]
      · simp only [List.map_cons]
        rw [List.dlookup_cons_ne _ _ hk, List.dlookup_cons_ne _ _ hk, ih]
  have hent : m.toIface.entries =
      m.entries.map (fun kv => (⟨kv.1, Elem.str kv.2⟩ : Sigma (fun _ : String => Elem))) := rfl
  rw [hent, hmap]
  cases h : m.entries.dlookup k <;> simp [AList.lookup, h, Elem.strVal]

/-- C6: for every string `v` the two enumeration parsers return:
`parseObjectLockLegalHoldStatus v` is `v` when `v` is `ON` or `OFF` and the
empty status otherwise; `parseObjectLockMode v` is a mode equal to `v` when `v`
is `GOVERNANCE` or `COMPLIANCE` and nil otherwise. -/
theorem parse_enums_total (v : String) :
    parseObjectLockLegalHoldStatus v = (if v = "ON" ∨ v = "OFF" then v else "") ∧
    parseObjectLockMode v = (if v = "GOVERNANCE" ∨ v = "COMPLIANCE" then some v else none) := by
  constructor
  · unfold parseObjectLockLegalHoldStatus LegalHoldStatus.IsValid
    by_cases h1 : v = "ON" <;> by_cases h2 : v = "OFF" <;> simp [h1, h2]
  · unfold parseObjectLockMode RetentionMode.IsValid
    by_cases h1 : v = "GOVERNANCE" <;> by_cases h2 : v = "COMPLIANCE" <;> simp [h1, h2]

/-! ### Calls of the object handlers -/

theorem read_calls_kind (tl : TimeLib) (client : Client) (hist : List Call) (d : ObjectData) :
    ∀ c ∈ (resourceS3BucketObjectRead tl client hist d).calls,
      c.isUpload = false ∧ c.isRetentionUpdate = false ∧ c.isTaggingUpdate = false := by
  intro c hc
  unfold resourceS3BucketObjectRead at hc
  dsimp only at hc
  split at hc
  · simp at hc; subst hc; simp [Call.isUpload, Call.isRetentionUpdate, Call.isTaggingUpdate]
  · split at hc
    · simp at hc
      rcases hc with rfl | rfl <;>
        simp [Call.isUpload, Call.isRetentionUpdate, Call.isTaggingUpdate]
    · split at hc <;>
      · simp at hc
        rcases hc with rfl | rfl | rfl <;>
          simp [Call.isUpload, Call.isRetentionUpdate, Call.isTaggingUpdate]

theorem read_calls_ne_nil (tl : TimeLib) (client : Client) (hist : List Call) (d : ObjectData) :
    (resourceS3BucketObjectRead tl client hist d).calls ≠ [] := by
  unfold resourceS3BucketObjectRead
  dsimp only
  split
  · simp
  · split
    · simp
    · split <;> simp

theorem put_calls_kind (host : Host) (tl : TimeLib) (client : Client) (hist : List Call)
    (d : ObjectData) :
    ∀ c ∈ (resourceS3BucketObjectPut host tl client hist d).calls,
      c.isRetentionUpdate = false ∧ c.isTaggingUpdate = false := by
  intro c hc
  unfold resourceS3BucketObjectPut at hc
  split at hc
  · simp at hc
  · split at hc
    · simp at hc
    · dsimp only at hc
      split at hc
      · simp at hc; subst hc; simp [Call.isRetentionUpdate, Call.isTaggingUpdate]
      · simp only [Outcome.after, List.mem_append, List.mem_singleton] at hc
        rcases hc with rfl | hc
        · simp [Call.isRetentionUpdate, Call.isTaggingUpdate]
        · exact (read_calls_kind _ _ _ _ c hc).2

theorem put_calls_head (host : Host) (tl : TimeLib) (client : Client) (hist : List Call)
    (d : ObjectData) :
    (resourceS3BucketObjectPut host tl client hist d).calls = [] ∨
    ∃ c, c ∈ (resourceS3BucketObjectPut host tl client hist d).calls ∧ c.isUpload = true := by
  cases hb : putBody host d with
  | error e => left; simp [resourceS3BucketObjectPut, hb]
  | ok body =>
    cases ho : putOptions tl d with
    | error p => left; simp [resourceS3BucketObjectPut, hb, ho]
    | ok options =>
      right
      refine ⟨.PutObject (d.Get "bucket") (d.Get "key") body (-1) options, ?_, rfl⟩
      cases he : client.exec hist (.PutObject (d.Get "bucket") (d.Get "key") body (-1) options) <;>
        simp [resourceS3BucketObjectPut, hb, ho, he, Outcome.after]

theorem after_nil {A : Type} (o : Outcome A) : o.after [] = o := by
  cases o; simp [Outcome.after]

theorem after_after {A : Type} (o : Outcome A) (p q : List Call) :
    (o.after p).after q = o.after (q ++ p) := by
  cases o; simp [Outcome.after]

/-- What the tag step of an update does, by whether the tags changed. -/
theorem updateTagsThenRead_cases (tl : TimeLib) (client : Client) (hist : List Call)
    (d : ObjectData) :
    (d.HasChange "tags" = false ∧
      updateTagsThenRead tl client hist d = resourceS3BucketObjectRead tl client hist d) ∨
    (d.HasChange "tags" = true ∧ ∃ t,
      MakeUserTags (.mapIface d.new.tags.toIface) = .ok t ∧
      (∀ k, t.lookup k = d.new.tags.lookup k) ∧
      ((∃ err, client.exec hist (.PutObjectTagging (d.Get "bucket") (d.Get "key") t) = some err ∧
          updateTagsThenRead tl client hist d =
            ⟨[.PutObjectTagging (d.Get "bucket") (d.Get "key") t], d,
              .err (.wrap err "Failed to update tags")⟩) ∨
       (client.exec hist (.PutObjectTagging (d.Get "bucket") (d.Get "key") t) = none ∧
          updateTagsThenRead tl client hist d =
            (resourceS3BucketObjectRead tl client
              (hist ++ [.PutObjectTagging (d.Get "bucket") (d.Get "key") t]) d).after
              [.PutObjectTagging (d.Get "bucket") (d.Get "key") t]))) := by
  cases hc : d.HasChange "tags" with
  | false => left; simp [updateTagsThenRead, hc]
  | true =>
    right
    obtain ⟨t, ht, hl⟩ := MakeUserTags_toIface d.new.tags
    refine ⟨rfl, t, ht, hl, ?_⟩
    cases he : client.exec hist (.PutObjectTagging (d.Get "bucket") (d.Get "key") t) with
    | some err => left; exact ⟨err, rfl, by simp [updateTagsThenRead, hc, ht, he]⟩
    | none => right; exact ⟨rfl, by simp [updateTagsThenRead, hc, ht, he]⟩

theorem updateTagsThenRead_calls (tl : TimeLib) (client : Client) (hist : List Call)
    (d : ObjectData) :
    (updateTagsThenRead tl client hist d).calls ≠ [] ∧
    (∀ c ∈ (updateTagsThenRead tl client hist d).calls,
      c.isUpload = false ∧ c.isRetentionUpdate = false ∧
      (c.isTaggingUpdate = true → ∃ t, c = .PutObjectTagging (d.Get "bucket") (d.Get "key") t ∧
        ∀ k, t.lookup k = d.new.tags.lookup k)) ∧
    ((∃ c ∈ (updateTagsThenRead tl client hist d).calls, c.isTaggingUpdate = true) ↔
      d.HasChange "tags" = true) := by
  rcases updateTagsThenRead_cases tl client hist d with
    ⟨hc, heq⟩ | ⟨hc, t, _, hl, ⟨err, _, heq⟩ | ⟨_, heq⟩⟩
  · rw [heq]
    refine ⟨read_calls_ne_nil _ _ _ _, fun c hcm => ?_, ?_⟩
    · obtain ⟨h1, h2, h3⟩ := read_calls_kind _ _ _ _ c hcm
      exact ⟨h1, h2, fun h => by rw [h3] at h; cases h⟩
    · constructor
      · rintro ⟨c, hcm, h⟩
        rw [(read_calls_kind _ _ _ _ c hcm).2.2] at h; cases h
      · intro h; rw [hc] at h; cases h
  · rw [heq]
    refine ⟨by simp, fun c hcm => ?_, ?_⟩
    · simp only [List.mem_singleton] at hcm
      subst hcm
      exact ⟨rfl, rfl, fun _ => ⟨t, rfl, hl⟩⟩
    · exact ⟨fun _ => hc, fun _ => ⟨_, List.mem_singleton.mpr rfl, rfl⟩⟩
  · rw [heq]
    refine ⟨by simp [Outcome.after], fun c hcm => ?_, ?_⟩
    · simp only [Outcome.after, List.mem_append, List.mem_singleton] at hcm
      rcases hcm with rfl | hcm
      · exact ⟨rfl, rfl, fun _ => ⟨t, rfl, hl⟩⟩
      · obtain ⟨h1, h2, h3⟩ := read_calls_kind _ _ _ _ c hcm
        exact ⟨h1, h2, fun h => by rw [h3] at h; cases h⟩
    · refine ⟨fun _ => hc, fun _ => ⟨.PutObjectTagging (d.Get "bucket") (d.Get "key") t, ?_, rfl⟩⟩
      simp [Outcome.after]

/-- What an update that re-uploads nothing does, by the retention step. -/
theorem update_patch_cases (host : Host) (tl : TimeLib) (client : Client) (hist : List Call)
    (d : ObjectData) (hbody : ∀ key ∈ reputKeys, d.HasChange key = false) :
    (d.retentionChanged = false ∧
      resourceS3BucketObjectUpdate host tl client hist d = updateTagsThenRead tl client hist d) ∨
    (d.retentionChanged = true ∧ ∃ err, client.exec hist (retentionCall tl d) = some err ∧
      resourceS3BucketObjectUpdate host tl client hist d =
        ⟨[retentionCall tl d], d, .err (.wrap err "Failed putting S3 object lock retention")⟩) ∨
    (d.retentionChanged = true ∧ client.exec hist (retentionCall tl d) = none ∧
      resourceS3BucketObjectUpdate host tl client hist d =
        (updateTagsThenRead tl client (hist ++ [retentionCall tl d]) d).after
          [retentionCall tl d]) := by
  have hany : reputKeys.any (fun key => d.HasChange key) = false := by
    rw [List.any_eq_false]
    intro key hkey
    simp [hbody key hkey]
  cases hr : d.retentionChanged with
  | false => left; exact ⟨rfl, by simp [resourceS3BucketObjectUpdate, hany, hr]⟩
  | true =>
    right
    cases he : client.exec hist (retentionCall tl d) with
    | some err =>
      left; exact ⟨rfl, err, rfl, by simp [resourceS3BucketObjectUpdate, hany, hr, he]⟩
    | none =>
      right; exact ⟨rfl, rfl, by simp [resourceS3BucketObjectUpdate, hany, hr, he]⟩

theorem retentionCall_kind (tl : TimeLib) (d : ObjectData) :
    (retentionCall tl d).isUpload = false ∧ (retentionCall tl d).isRetentionUpdate = true ∧
    (retentionCall tl d).isTaggingUpdate = false :=
  ⟨rfl, rfl, rfl⟩

/-! ### Object update: re-put or patch -/

/-- C1: an object update performs a full re-put (it is the run of
`resourceS3BucketObjectPut`, with its calls, data and result, and issues no
retention-update and no tagging-update call) if and only if at least one of
`storage_class`, `source`, `content`, `cache_control`, `content_type`,
`content_encoding`, `content_language`, `content_disposition` changed. -/
theorem update_reput_iff_changed (host : Host) (tl : TimeLib) (client : Client)
    (hist : List Call) (d : ObjectData) :
    (∃ key ∈ ["storage_class", "source", "content", "cache_control", "content_type",
        "content_encoding", "content_language", "content_disposition"],
      d.HasChange key = true) ↔
    (resourceS3BucketObjectUpdate host tl client hist d =
        resourceS3BucketObjectPut host tl client hist d ∧
      ∀ c ∈ (resourceS3BucketObjectUpdate host tl client hist d).calls,
        c.isRetentionUpdate = false ∧ c.isTaggingUpdate = false) := by
  constructor
  · intro h
    have hany : reputKeys.any (fun key => d.HasChange key) = true :=
      List.any_eq_true.mpr h
    have heq : resourceS3BucketObjectUpdate host tl client hist d =
        resourceS3BucketObjectPut host tl client hist d := by
      simp [resourceS3BucketObjectUpdate, hany]
    refine ⟨heq, ?_⟩
    rw [heq]
    exact put_calls_kind host tl client hist d
  · rintro ⟨heq, -⟩
    by_contra hno
    have hbody : ∀ key ∈ reputKeys, d.HasChange key = false := by
      intro key hkey
      cases hk : d.HasChange key with
      | false => rfl
      | true => exact absurd ⟨key, hkey, hk⟩ hno
    have hpatch : (resourceS3BucketObjectUpdate host tl client hist d).calls ≠ [] ∧
        ∀ c ∈ (resourceS3BucketObjectUpdate host tl client hist d).calls,
          c.isUpload = false := by
      rcases update_patch_cases host tl client hist d hbody with
        ⟨_, h⟩ | ⟨_, err, _, h⟩ | ⟨_, _, h⟩
      · rw [h]
        exact ⟨(updateTagsThenRead_calls tl client hist d).1,
          fun c hc => ((updateTagsThenRead_calls tl client hist d).2.1 c hc).1⟩
      · rw [h]
        refine ⟨by simp, fun c hc => ?_⟩
        simp only [List.mem_singleton] at hc
        subst hc; rfl
      · rw [h]
        refine ⟨by simp [Outcome.after], fun c hc => ?_⟩
        simp only [Outcome.after, List.mem_append, List.mem_singleton] at hc
        rcases hc with rfl | hc
        · rfl
        · exact ((updateTagsThenRead_calls tl client _ d).2.1 c hc).1
    rw [heq] at hpatch
    rcases put_calls_head host tl client hist d with hnil | ⟨c, hc, hup⟩
    · exact hpatch.1 hnil
    · rw [hpatch.2 c hc] at hup; cases hup

theorem updateTagsThenRead_concludes (tl : TimeLib) (client : Client) (hist : List Call)
    (d : ObjectData)
    (hok : d.HasChange "tags" = true → ∀ t, MakeUserTags (.mapIface d.new.tags.toIface) = .ok t →
      client.exec hist (.PutObjectTagging (d.Get "bucket") (d.Get "key") t) = none) :
    ∃ pre, (∀ c ∈ pre, c.isTaggingUpdate = true) ∧
      updateTagsThenRead tl client hist d =
        (resourceS3BucketObjectRead tl client (hist ++ pre) d).after pre := by
  rcases updateTagsThenRead_cases tl client hist d with
    ⟨_, heq⟩ | ⟨hc, t, ht, _, ⟨err, he, _⟩ | ⟨_, heq⟩⟩
  · exact ⟨[], by simp, by rw [heq, after_nil, List.append_nil]⟩
  · rw [hok hc t ht] at he; cases he
  · exact ⟨[.PutObjectTagging (d.Get "bucket") (d.Get "key") t],
      fun c hcm => by rw [List.mem_singleton.mp hcm]; rfl, heq⟩

/-- C2, amended: in an update in which none of the eight body/metadata
attributes changed, no upload call is issued; the retention-update call is
issued if and only if `object_lock_mode` or `object_lock_retain_until_date`
changed; the tagging-update call is issued if and only if the tags changed and
the retention update, when there is one, succeeded, and it carries the new tag
mapping; and when the issued calls succeed the update concludes with Read. -/
theorem update_patches_without_upload (host : Host) (tl : TimeLib) (client : Client)
    (hist : List Call) (d : ObjectData)
    (hbody : ∀ key ∈ reputKeys, d.HasChange key = false) :
    (∀ c ∈ (resourceS3BucketObjectUpdate host tl client hist d).calls, c.isUpload = false) ∧
    ((∃ c ∈ (resourceS3BucketObjectUpdate host tl client hist d).calls,
        c.isRetentionUpdate = true) ↔
      (d.HasChange "object_lock_mode" = true ∨
        d.HasChange "object_lock_retain_until_date" = true)) ∧
    ((∃ c ∈ (resourceS3BucketObjectUpdate host tl client hist d).calls,
        c.isTaggingUpdate = true) ↔
      (d.HasChange "tags" = true ∧
        (d.retentionChanged = true → client.exec hist (retentionCall tl d) = none))) ∧
    (∀ c ∈ (resourceS3BucketObjectUpdate host tl client hist d).calls,
      c.isTaggingUpdate = true →
        ∃ t, c = .PutObjectTagging (d.Get "bucket") (d.Get "key") t ∧
          ∀ k, t.lookup k = d.new.tags.lookup k) ∧
    ((d.retentionChanged = true → client.exec hist (retentionCall tl d) = none) →
      (d.HasChange "tags" = true → ∀ t, MakeUserTags (.mapIface d.new.tags.toIface) = .ok t →
        client.exec (hist ++ if d.retentionChanged then [retentionCall tl d] else [])
          (.PutObjectTagging (d.Get "bucket") (d.Get "key") t) = none) →
      ∃ pre, (∀ c ∈ pre, c.isRetentionUpdate = true ∨ c.isTaggingUpdate = true) ∧
        resourceS3BucketObjectUpdate host tl client hist d =
          (resourceS3BucketObjectRead tl client (hist ++ pre) d).after pre) := by
  have hret : (d.HasChange "object_lock_mode" = true ∨
      d.HasChange "object_lock_retain_until_date" = true) ↔ d.retentionChanged = true := by
    simp [ObjectData.retentionChanged]
  rw [hret]
  rcases update_patch_cases host tl client hist d hbody with
    ⟨hr, h⟩ | ⟨hr, err, he, h⟩ | ⟨hr, he, h⟩
  · obtain ⟨_, hkind, htag⟩ := updateTagsThenRead_calls tl client hist d
    rw [h]
    refine ⟨fun c hc => (hkind c hc).1, ?_, ?_, fun c hc => (hkind c hc).2.2, ?_⟩
    · constructor
      · rintro ⟨c, hc, hcr⟩
        rw [(hkind c hc).2.1] at hcr; cases hcr
      · intro h'; rw [hr] at h'; cases h'
    · rw [htag]
      constructor
      · intro h'; exact ⟨h', fun h'' => by rw [hr] at h''; cases h''⟩
      · intro h'; exact h'.1
    · intro _ hok
      simp only [hr, Bool.false_eq_true, if_false, List.append_nil] at hok
      obtain ⟨pre, hpre, heq⟩ := updateTagsThenRead_concludes tl client hist d hok
      exact ⟨pre, fun c hc => Or.inr (hpre c hc), heq⟩
  · rw [h]
    refine ⟨?_, ?_, ?_, ?_, ?_⟩
    · intro c hc
      rw [List.mem_singleton.mp hc]; rfl
    · exact ⟨fun _ => hr, fun _ => ⟨_, List.mem_singleton.mpr rfl, rfl⟩⟩
    · constructor
      · rintro ⟨c, hc, hct⟩
        rw [List.mem_singleton.mp hc] at hct; cases hct
      · rintro ⟨_, hok⟩
        rw [hok hr] at he; cases he
    · intro c hc hct
      rw [List.mem_singleton.mp hc] at hct; cases hct
    · intro hok _
      rw [hok hr] at he; cases he
  · obtain ⟨_, hkind, htag⟩ :=
      updateTagsThenRead_calls tl client (hist ++ [retentionCall tl d]) d
    rw [h]
    simp only [Outcome.after, List.mem_append, List.mem_singleton]
    refine ⟨?_, ?_, ?_, ?_, ?_⟩
    · rintro c (rfl | hc)
      · rfl
      · exact (hkind c hc).1
    · exact ⟨fun _ => hr, fun _ => ⟨retentionCall tl d, Or.inl rfl, rfl⟩⟩
    · constructor
      · rintro ⟨c, rfl | hc, hct⟩
        · cases hct
        · exact ⟨htag.mp ⟨c, hc, hct⟩, fun _ => he⟩
      · rintro ⟨hc, _⟩
        obtain ⟨c, hcm, hct⟩ := htag.mpr hc
        exact ⟨c, Or.inr hcm, hct⟩
    · rintro c (rfl | hc) hct
      · cases hct
      · exact (hkind c hc).2.2 hct
    · intro _ hok
      simp only [hr, if_true] at hok
      obtain ⟨pre, hpre, heq⟩ :=
        updateTagsThenRead_concludes tl client (hist ++ [retentionCall tl d]) d hok
      refine ⟨retentionCall tl d :: pre, ?_, ?_⟩
      · intro c hc
        rcases List.mem_cons.mp hc with rfl | hc
        · exact Or.inl rfl
        · exact Or.inr (hpre c hc)
      · rw [heq]
        simp [Outcome.after, List.append_assoc]

/-- C2, as stated, fails: with the retention mode and the tags both changed and
the retention update rejected by the service, the update returns before the
tag step, so the tags changed and yet no tagging-update call is issued. -/
theorem update_skips_tags_when_retention_fails :
    (∀ key ∈ reputKeys, modeAndTagsChange.HasChange key = false) ∧
    modeAndTagsChange.HasChange "tags" = true ∧
    ¬ ∃ c ∈ (resourceS3BucketObjectUpdate sampleHost sampleTime retentionDenied []
        modeAndTagsChange).calls, c.isTaggingUpdate = true := by
  decide

theorem update_patches_without_upload_witness :
    (∀ key ∈ reputKeys, modeAndTagsChange.HasChange key = false) ∧
    (∀ c ∈ (resourceS3BucketObjectUpdate sampleHost sampleTime sampleClient []
        modeAndTagsChange).calls, c.isUpload = false) ∧
    ((∃ c ∈ (resourceS3BucketObjectUpdate sampleHost sampleTime sampleClient []
        modeAndTagsChange).calls, c.isTaggingUpdate = true) ↔
      (modeAndTagsChange.HasChange "tags" = true ∧
        (modeAndTagsChange.retentionChanged = true →
          sampleClient.exec [] (retentionCall sampleTime modeAndTagsChange) = none))) :=
  ⟨by decide,
   (update_patches_without_upload sampleHost sampleTime sampleClient [] modeAndTagsChange
      (by decide)).1,
   (update_patches_without_upload sampleHost sampleTime sampleClient [] modeAndTagsChange
      (by decide)).2.2.1⟩

/-! ### Governance bypass -/

theorem retentionOptions_bypass (tl : TimeLib) (d : ObjectData)
    (hchg : d.HasChange "object_lock_retain_until_date" = true) :
    (retentionOptions tl d).GovernanceBypass = true ↔
      (parseObjectLockDeadline tl d.new.object_lock_retain_until_date = none ∨
        ∃ n o, parseObjectLockDeadline tl d.new.object_lock_retain_until_date = some n ∧
          parseObjectLockDeadline tl d.old.object_lock_retain_until_date = some o ∧
          n.nsec < o.nsec) := by
  have hn : (d.GetChange "object_lock_retain_until_date").2 =
      d.new.object_lock_retain_until_date := rfl
  have ho : (d.GetChange "object_lock_retain_until_date").1 =
      d.old.object_lock_retain_until_date := rfl
  unfold retentionOptions
  simp only [hchg, if_true, hn, ho]
  cases hpn : parseObjectLockDeadline tl d.new.object_lock_retain_until_date with
  | none => simp
  | some n =>
    cases hpo : parseObjectLockDeadline tl d.old.object_lock_retain_until_date with
    | none => simp
    | some o =>
      by_cases hlt : n.nsec < o.nsec
      · simp [Time.Before, hlt]
      · simp [Time.Before, hlt]

/-- The bypass test on deadlines as `parseObjectLockDeadline` reads them: in an
update that reaches the retention-update call (none of the eight body/metadata
attributes changed) with `object_lock_retain_until_date` changed, the first
call is the retention update, and its options have the governance bypass flag
set exactly when the new deadline reads as absent or reads earlier than what
the old one reads as. An old value that does not parse counts as no deadline
at all. -/
theorem update_retention_bypass (host : Host) (tl : TimeLib) (client : Client)
    (hist : List Call) (d : ObjectData)
    (hbody : ∀ key ∈ reputKeys, d.HasChange key = false)
    (hchg : d.HasChange "object_lock_retain_until_date" = true) :
    ∃ opts,
      (resourceS3BucketObjectUpdate host tl client hist d).calls.head? =
        some (.PutObjectRetention (d.Get "bucket") (d.Get "key") opts) ∧
      (∀ c ∈ (resourceS3BucketObjectUpdate host tl client hist d).calls,
        c.isRetentionUpdate = true →
          c = .PutObjectRetention (d.Get "bucket") (d.Get "key") opts) ∧
      (opts.GovernanceBypass = true ↔
        (parseObjectLockDeadline tl d.new.object_lock_retain_until_date = none ∨
          ∃ n o, parseObjectLockDeadline tl d.new.object_lock_retain_until_date = some n ∧
            parseObjectLockDeadline tl d.old.object_lock_retain_until_date = some o ∧
            n.nsec < o.nsec)) ∧
      (∀ n o, parseObjectLockDeadline tl d.new.object_lock_retain_until_date = some n →
        parseObjectLockDeadline tl d.old.object_lock_retain_until_date = some o →
        o.nsec < n.nsec → opts.GovernanceBypass = false) ∧
      (d.new.object_lock_retain_until_date = "" → tl.parseRFC3339 "" = none →
        opts.GovernanceBypass = true) := by
  have hr : d.retentionChanged = true := by simp [ObjectData.retentionChanged, hchg]
  have hby := retentionOptions_bypass tl d hchg
  refine ⟨retentionOptions tl d, ?_, ?_, hby, ?_, ?_⟩
  · rcases update_patch_cases host tl client hist d hbody with
      ⟨hr', _⟩ | ⟨_, err, _, h⟩ | ⟨_, _, h⟩
    · rw [hr] at hr'; cases hr'
    · rw [h]; rfl
    · rw [h]; rfl
  · intro c hc hcr
    rcases update_patch_cases host tl client hist d hbody with
      ⟨hr', _⟩ | ⟨_, err, _, h⟩ | ⟨_, _, h⟩
    · rw [hr] at hr'; cases hr'
    · rw [h] at hc
      rw [List.mem_singleton.mp hc]; rfl
    · rw [h] at hc
      simp only [Outcome.after, List.mem_append, List.mem_singleton] at hc
      rcases hc with rfl | hc
      · rfl
      · rw [((updateTagsThenRead_calls tl client _ d).2.1 c hc).2.1] at hcr; cases hcr
  · intro n o hn ho hlt
    cases hb : (retentionOptions tl d).GovernanceBypass with
    | false => rfl
    | true =>
      rcases hby.mp hb with hnone | ⟨n', o', hn', ho', hlt'⟩
      · rw [hn] at hnone; cases hnone
      · rw [hn] at hn'; rw [ho] at ho'
        cases hn'; cases ho'
        omega
  · intro hempty hparse
    refine hby.mpr (Or.inl ?_)
    rw [hempty]
    simp [parseObjectLockDeadline, hparse]

theorem update_retention_bypass_witness :
    (∀ key ∈ reputKeys, deadlineLowered.HasChange key = false) ∧
    deadlineLowered.HasChange "object_lock_retain_until_date" = true ∧
    ∃ opts,
      (resourceS3BucketObjectUpdate sampleHost sampleTime sampleClient []
          deadlineLowered).calls.head? = some (.PutObjectRetention "b" "k" opts) ∧
      opts.GovernanceBypass = true := by
  obtain ⟨opts, h1, _, h3, _⟩ :=
    update_retention_bypass sampleHost sampleTime sampleClient [] deadlineLowered
      (by decide) (by decide)
  exact ⟨by decide, by decide, opts, h1, h3.mpr (Or.inr ⟨⟨64029052800000000000, 0⟩,
    ⟨64060588800000000000, 0⟩, by decide, by decide, by decide⟩)⟩

/-! ### Errors of Read -/

/-- The three ways Read fails: the stat error is returned as it is, the
retention and tagging errors are wrapped with the bucket and the key. -/
theorem read_error_forms (tl : TimeLib) (client : Client) (hist : List Call) (d : ObjectData) :
    (∀ e, client.StatObject hist (d.Get "bucket") (d.Get "key") = .error e →
      (resourceS3BucketObjectRead tl client hist d).result = .err e) ∧
    (∀ stat e, client.StatObject hist (d.Get "bucket") (d.Get "key") = .ok stat →
      client.GetObjectRetention (hist ++ [.StatObject (d.Get "bucket") (d.Get "key")])
        (d.Get "bucket") (d.Get "key") "" = .error e →
      (resourceS3BucketObjectRead tl client hist d).result =
        .err (.wrap e ("Failed to retrieve retention info for S3 Bucket (" ++ d.Get "bucket" ++
          ") Object (" ++ d.Get "key" ++ ")"))) ∧
    (∀ stat r e, client.StatObject hist (d.Get "bucket") (d.Get "key") = .ok stat →
      client.GetObjectRetention (hist ++ [.StatObject (d.Get "bucket") (d.Get "key")])
        (d.Get "bucket") (d.Get "key") "" = .ok r →
      client.GetObjectTagging (hist ++ [.StatObject (d.Get "bucket") (d.Get "key"),
        .GetObjectRetention (d.Get "bucket") (d.Get "key") ""])
        (d.Get "bucket") (d.Get "key") = .error e →
      (resourceS3BucketObjectRead tl client hist d).result =
        .err (.wrap e ("Failed to list tags for S3 Bucket (" ++ d.Get "bucket" ++
          ") Object (" ++ d.Get "key" ++ ")"))) := by
  refine ⟨fun e h => ?_, fun stat e h1 h2 => ?_, fun stat r e h1 h2 h3 => ?_⟩
  · simp [resourceS3BucketObjectRead, h]
  · simp [resourceS3BucketObjectRead, h1, h2]
  · simp [resourceS3BucketObjectRead, h1, h2, h3]

/-- C4, at a failing stat call: Read on bucket `b`, key `k` returns the storage
error itself; it is not wrapped and names neither the bucket nor the key. -/
theorem read_stat_error_not_wrapped :
    (resourceS3BucketObjectRead sampleTime objectMissing [] objectInPlace).result =
      .err (.base "The specified key does not exist.") ∧
    ∀ cause msg, (resourceS3BucketObjectRead sampleTime objectMissing [] objectInPlace).result ≠
      .err (.wrap cause msg) := by
  have h : (resourceS3BucketObjectRead sampleTime objectMissing [] objectInPlace).result =
      .err (.base "The specified key does not exist.") := by decide
  refine ⟨h, fun cause msg => ?_⟩
  rw [h]
  intro hc
  cases hc

/-! ### MakeUserTags and the parse helpers -/

/-- C5, as stated, fails: on a loosely-typed mapping with a value that is not a
string, `MakeUserTags` does not return a mapping; it panics. -/
theorem MakeUserTags_panics_on_int :
    MakeUserTags (.mapIface (AList.singleton "count" (Elem.int 1))) =
      .error "interface conversion: interface \x7b\x7d is int, not string" := by
  rfl

/-- C5, amended: on a loosely-typed mapping whose values are all strings and on
a string-to-string mapping, `MakeUserTags` returns a mapping with the same keys,
each carrying its input value; on an input of any other shape it returns the
empty mapping; on a loosely-typed mapping with a value that is not a string it
returns nothing (it panics). -/
theorem MakeUserTags_spec :
    (∀ m : GoMap Elem, (∀ kv ∈ m.entries, ∃ s, kv.2 = Elem.str s) →
      ∃ t, MakeUserTags (.mapIface m) = .ok t ∧
        ∀ k, (t.lookup k).map Elem.str = m.lookup k) ∧
    (∀ m : GoMap String,
      ∃ t, MakeUserTags (.mapString m) = .ok t ∧ ∀ k, t.lookup k = m.lookup k) ∧
    (∀ xs, MakeUserTags (.slice xs) = .ok ∅) ∧
    (∀ e, MakeUserTags (.scalar e) = .ok ∅) ∧
    (∀ m : GoMap Elem, (∃ kv ∈ m.entries, ∀ s, kv.2 ≠ Elem.str s) →
      ∃ p, MakeUserTags (.mapIface m) = .error p) := by
  refine ⟨fun m hm => ?_, fun m => ?_, fun _ => rfl, fun _ => rfl, fun m hm => ?_⟩
  · refine ⟨_, foldl_tagStep_strings _ hm ∅, fun k => ?_⟩
    rw [foldl_insert_lookup Elem.strVal _ m.nodupKeys]
    cases h : m.entries.dlookup k with
    | none => simp [AList.lookup, h]
    | some v =>
      obtain ⟨s, hs⟩ := hm ⟨k, v⟩ (List.of_mem_dlookup h)
      simp only at hs
      simp [AList.lookup, h, hs, Elem.strVal]
  · refine ⟨_, rfl, fun k => ?_⟩
    have h := foldl_insert_lookup (fun v : String => v) m.entries m.nodupKeys ∅ k
    simp only [AList.lookup_empty] at h
    rw [h]
    cases h' : m.entries.dlookup k <;> simp [AList.lookup, h']
  · exact foldl_tagStep_non_string _ hm _

theorem MakeUserTags_spec_witness :
    ∃ t, MakeUserTags (.mapIface (AList.singleton "env" (Elem.str "prod"))) = .ok t ∧
      ∀ k, (t.lookup k).map Elem.str =
        (AList.singleton "env" (Elem.str "prod") : GoMap Elem).lookup k :=
  MakeUserTags_spec.1 (AList.singleton "env" (Elem.str "prod")) (by
    intro kv hkv
    have h : kv = ⟨"env", Elem.str "prod"⟩ := by simpa [AList.singleton] using hkv
    exact ⟨"prod", by rw [h]⟩)

/-! ### Bucket update and creation -/

theorem bucket_read_calls (client : Client) (hist : List Call) (d : BucketData) :
    (resourceS3BucketRead client hist d).calls = [.BucketExists d.id] := by
  unfold resourceS3BucketRead
  dsimp only
  split <;> rfl

/-- C7: a bucket update issues a versioning call if and only if the versioning
configuration changed, and then exactly one: the enable-versioning call when the
versioning block is present with `enabled = true`, the disable-versioning call
when `enabled = false` or the block is absent; when that call succeeds or is
skipped, the update concludes by running Read. -/
theorem bucket_update_versioning (client : Client) (hist : List Call) (d : BucketData) :
    let call := if d.cur.versioning.head? = some { enabled := true } then
        Call.EnableVersioning d.cur.bucket
      else Call.DisableVersioning d.cur.bucket
    let issued := if d.old.versioning ≠ d.new.versioning then [call] else []
    (resourceS3BucketUpdate client hist d).calls.filter Call.isVersioning = issued ∧
    ((d.old.versioning = d.new.versioning ∨ client.exec hist call = none) →
      resourceS3BucketUpdate client hist d =
        (resourceS3BucketRead client (hist ++ issued) d).after issued) := by
  intro call issued
  have hcall : versioningCall d = call := by
    unfold versioningCall
    cases hv : d.cur.versioning with
    | nil => simp [call, hv]
    | cons c cs =>
      obtain ⟨e⟩ := c
      cases e <;> simp [call, hv]
  have hkind : call.isVersioning = true := by
    simp only [call]; split <;> rfl
  by_cases hch : d.old.versioning = d.new.versioning
  · have hc : d.HasChangeVersioning = false := by
      simp [BucketData.HasChangeVersioning, hch]
    have hi : issued = [] := by simp [issued, hch]
    have heq : resourceS3BucketUpdate client hist d = resourceS3BucketRead client hist d := by
      simp [resourceS3BucketUpdate, hc]
    rw [hi, heq, after_nil, List.append_nil, bucket_read_calls]
    exact ⟨rfl, fun _ => rfl⟩
  · have hc : d.HasChangeVersioning = true := by
      simp [BucketData.HasChangeVersioning, hch]
    have hi : issued = [call] := by simp [issued, hch]
    rw [hi]
    cases he : client.exec hist call with
    | some err =>
      have heq : resourceS3BucketUpdate client hist d = ⟨[call], d, .err err⟩ := by
        simp [resourceS3BucketUpdate, hc, resourceS3BucketVersioningUpdate, hcall, he]
      refine ⟨by rw [heq]; simp [hkind], fun h => ?_⟩
      rcases h with h | h
      · exact absurd h hch
      · cases h
    | none =>
      have heq : resourceS3BucketUpdate client hist d =
          (resourceS3BucketRead client (hist ++ [call]) d).after [call] := by
        simp [resourceS3BucketUpdate, hc, resourceS3BucketVersioningUpdate, hcall, he]
      have hb : ∀ b, Call.isVersioning (.BucketExists b) = false := fun _ => rfl
      refine ⟨?_, fun _ => heq⟩
      rw [heq]
      simp [Outcome.after, bucket_read_calls, List.filter_cons, hkind, hb]

theorem bucket_update_versioning_witness :
    resourceS3BucketUpdate sampleClient [] lockedBucket =
      (resourceS3BucketRead sampleClient ([] ++ [.EnableVersioning "logs"]) lockedBucket).after
        [.EnableVersioning "logs"] :=
  (bucket_update_versioning sampleClient [] lockedBucket).2 (Or.inr (by decide))

/-- C8: bucket creation issues the object-lock create-bucket call exactly when
`object_lock_enabled` is set and the plain create-bucket call otherwise; when
the call fails, Create returns an error wrapping the cause and naming the bucket
and the region, with that call as its only call (Update is not run) and the
resource identity as it was; when it succeeds, the rest of the run is Update on
the resource data whose identity is the bucket name. -/
theorem bucket_create (client : Client) (region uniqueId : String) (hist : List Call)
    (d : BucketData) :
    let bucket := if d.cur.bucket ≠ "" then d.cur.bucket else uniqueId
    let call := if d.cur.object_lock_enabled = true then
        Call.MakeBucketWithObjectLock bucket region
      else Call.MakeBucket bucket region
    (resourceS3BucketCreate client region uniqueId hist d).calls.head? = some call ∧
    (∀ err, client.exec hist call = some err →
      (resourceS3BucketCreate client region uniqueId hist d).result =
        .err (.wrap err
          ("Unable to create bucket [" ++ bucket ++ "] in region [" ++ region ++ "]")) ∧
      (resourceS3BucketCreate client region uniqueId hist d).calls = [call] ∧
      (resourceS3BucketCreate client region uniqueId hist d).d.id = d.id) ∧
    (client.exec hist call = none →
      ((d.Set "bucket" bucket).SetId bucket).id = bucket ∧
      resourceS3BucketCreate client region uniqueId hist d =
        (resourceS3BucketUpdate client (hist ++ [call])
          ((d.Set "bucket" bucket).SetId bucket)).after [call]) := by
  intro bucket call
  have hb : (if d.GetOk "bucket" = true then d.cur.bucket else uniqueId) = bucket := by
    by_cases h : d.cur.bucket = "" <;> simp [BucketData.GetOk, bucket, h]
  have hcall : createCall (d.Set "bucket" bucket) bucket region = call := by
    by_cases h : d.cur.object_lock_enabled = true <;>
      simp [createCall, BucketData.Set, call, h]
  have hform : resourceS3BucketCreate client region uniqueId hist d =
      match client.exec hist call with
      | some err =>
        ⟨[call], d.Set "bucket" bucket,
          .err (.wrap err
            ("Unable to create bucket [" ++ bucket ++ "] in region [" ++ region ++ "]"))⟩
      | none =>
        (resourceS3BucketUpdate client (hist ++ [call])
          ((d.Set "bucket" bucket).SetId bucket)).after [call] := by
    unfold resourceS3BucketCreate
    dsimp only
    rw [hb, hcall]
  rw [hform]
  refine ⟨?_, fun err he => ?_, fun he => ⟨rfl, ?_⟩⟩
  · cases he : client.exec hist call with
    | some err => rfl
    | none => rfl
  · rw [he]
    exact ⟨rfl, rfl, rfl⟩
  · rw [he]

theorem bucket_create_witness :
    (resourceS3BucketCreate createDenied "us-east-1" "terraform-2026" [] lockedBucket).result =
        .err (.wrap (.base "Access Denied.")
          ("Unable to create bucket [" ++ "logs" ++ "] in region [" ++ "us-east-1" ++ "]")) ∧
    (resourceS3BucketCreate createDenied "us-east-1" "terraform-2026" [] lockedBucket).calls =
        [.MakeBucketWithObjectLock "logs" "us-east-1"] ∧
    (resourceS3BucketCreate createDenied "us-east-1" "terraform-2026" [] lockedBucket).d.id =
        lockedBucket.id :=
  (bucket_create createDenied "us-east-1" "terraform-2026" [] lockedBucket).2.1
    (.base "Access Denied.") (by decide)

/-! ### Credentials -/

/-- C9: for a configuration with a non-empty access key and secret key, in
every state of the environment variables and of the shared credentials file,
the credential chain resolves to the static values, and the client that
`Config.Client` builds (it builds one whenever the constructor accepts the
endpoint) is constructed with exactly the configured access key and secret
key. -/
theorem client_uses_static_credentials (env : ClientEnv) (c : Config)
    (hak : c.AccessKey ≠ "") (hsk : c.SecretKey ≠ "") :
    c.creds env = .ok ⟨c.AccessKey, c.SecretKey, c.Token⟩ ∧
    (env.endpointError c.Endpoint c.TlsEnabled = none →
      ∃ s3, c.Client env = .ok s3 ∧ s3.client.accessKeyID = c.AccessKey ∧
        s3.client.secretAccessKey = c.SecretKey) ∧
    (∀ s3, c.Client env = .ok s3 →
      s3.client.accessKeyID = c.AccessKey ∧ s3.client.secretAccessKey = c.SecretKey) := by
  have hcreds : c.creds env = .ok ⟨c.AccessKey, c.SecretKey, c.Token⟩ := by
    simp [Config.creds, staticProvider, hak, hsk, chainGet]
  have hright : ∀ s3, c.Client env = .ok s3 →
      s3.client.accessKeyID = c.AccessKey ∧ s3.client.secretAccessKey = c.SecretKey := by
    intro s3 h
    cases hend : env.endpointError c.Endpoint c.TlsEnabled with
    | some err => simp [Config.Client, hcreds, hend] at h
    | none =>
      simp only [Config.Client, hcreds, hend] at h
      cases h
      exact ⟨rfl, rfl⟩
  refine ⟨hcreds, fun hend => ?_, hright⟩
  have hex : ∃ s3, c.Client env = .ok s3 := by
    simp only [Config.Client, hcreds, hend]
    exact ⟨_, rfl⟩
  obtain ⟨s3, hs3⟩ := hex
  exact ⟨s3, hs3, hright s3 hs3⟩

theorem client_uses_static_credentials_witness :
    staticConfig.creds sampleEnv = .ok ⟨"AK", "SK", ""⟩ ∧
    ∃ s3, staticConfig.Client sampleEnv = .ok s3 ∧ s3.client.accessKeyID = "AK" ∧
      s3.client.secretAccessKey = "SK" :=
  ⟨(client_uses_static_credentials sampleEnv staticConfig (by decide) (by decide)).1,
   (client_uses_static_credentials sampleEnv staticConfig (by decide) (by decide)).2.1 rfl⟩

/-- The configuration `providerConfigure` constructs never carries a session
token, whatever the host configured. -/
theorem providerConfig_token_empty (env : ClientEnv) (d : ProviderData) (tv : String)
    (config : Config) (h : providerConfig env d tv = .ok config) :
    config.AccessKey = d.access_key ∧ config.SecretKey = d.secret_key ∧ config.Token = "" := by
  unfold providerConfig at h
  dsimp only at h
  split at h
  · cases h
  · cases h
    exact ⟨rfl, rfl, rfl⟩

/-- C10, at a configuration with a session token: the access key and the secret
key reach the constructed configuration, the configured token `SESSION` does
not; the session token of the configuration is empty. -/
theorem providerConfigure_drops_token :
    ∃ config, providerConfig sampleEnv temporaryCredentials "0.12.0" = .ok config ∧
      config.AccessKey = "AK" ∧ config.SecretKey = "SK" ∧
      temporaryCredentials.token = "SESSION" ∧ config.Token = "" ∧
      config.creds sampleEnv = .ok ⟨"AK", "SK", ""⟩ :=
  ⟨_, rfl, rfl, rfl, rfl, rfl, rfl⟩

/-! ### The retention deadline through state -/

theorem digitChar_ne_T (n : Nat) : digitChar n ≠ 'T' := by
  unfold digitChar
  split <;> decide

theorem decimalAux_ne_T (fuel n : Nat) : ∀ c ∈ decimalAux fuel n, c ≠ 'T' := by
  induction fuel generalizing n with
  | zero =>
    intro c hc
    simp only [decimalAux, List.mem_singleton] at hc
    rw [hc]; exact digitChar_ne_T n
  | succ fuel ih =>
    intro c hc
    unfold decimalAux at hc
    split at hc
    · rw [List.mem_singleton.mp hc]; exact digitChar_ne_T n
    · rcases List.mem_append.mp hc with h | h
      · exact ih _ c h
      · rw [List.mem_singleton.mp h]; exact digitChar_ne_T n

theorem appendInt_ne_T (x : Int) (width : Nat) : ∀ c ∈ appendInt x width, c ≠ 'T' := by
  intro c hc
  unfold appendInt at hc
  rcases List.mem_append.mp hc with h | h
  · rcases List.mem_append.mp h with h | h
    · split at h
      · rw [List.mem_singleton.mp h]; decide
      · cases h
    · rw [(List.mem_replicate.mp h).2]; decide
  · exact decimalAux_ne_T _ _ c h

theorem appendInt_length (x : Int) (width : Nat) : width ≤ (appendInt x width).length := by
  simp only [appendInt, List.length_append, List.length_replicate]
  omega

theorem numTZ_ne_T (offset : Int) : ∀ c ∈ numTZ offset, c ≠ 'T' := by
  intro c hc
  unfold numTZ at hc
  rcases List.mem_append.mp hc with h | h
  · rcases List.mem_append.mp h with h | h
    · split at h <;> (rw [List.mem_singleton.mp h]; decide)
    · exact appendInt_ne_T _ _ c h
  · exact appendInt_ne_T _ _ c h

theorem formatNano_ne_T (nanosec : Nat) : ∀ c ∈ formatNano nanosec, c ≠ 'T' := by
  intro c hc
  unfold formatNano at hc
  dsimp only at hc
  split at hc
  · cases hc
  · rcases List.mem_cons.mp hc with h | h
    · rw [h]; decide
    · have h1 := List.mem_reverse.mp h
      have h2 := (List.dropWhile_suffix _).subset h1
      exact appendInt_ne_T _ _ c (List.mem_reverse.mp h2)

/-- The stamp of `Time.String` holds no `T` and is at least eleven characters
long: the place where RFC 3339 wants its `T` lies inside it. -/
theorem stamp_shape (t : Time) : (∀ c ∈ t.stamp, c ≠ 'T') ∧ 11 ≤ t.stamp.length := by
  constructor
  · intro c hc
    unfold Time.stamp at hc
    simp only [List.mem_append, List.mem_singleton] at hc
    rcases hc with (((((((((((((h | h) | h) | h) | h) | h) | h) | h) | h) | h) | h) | h) | h) | h) | h
    all_goals first
      | exact appendInt_ne_T _ _ c h
      | exact formatNano_ne_T _ c h
      | exact numTZ_ne_T _ c h
      | (rw [h]; decide)
  · have h1 := appendInt_length (civilFromDays ((t.nsec / 1000000000 + t.offset) / 86400)).1 4
    have h2 := appendInt_length
      (civilFromDays ((t.nsec / 1000000000 + t.offset) / 86400)).2.1 2
    have h3 := appendInt_length
      (civilFromDays ((t.nsec / 1000000000 + t.offset) / 86400)).2.2 2
    unfold Time.stamp
    simp only [List.length_append, List.length_singleton]
    omega

theorem parseRFC3339Chars_wants_T (value : List Char)
    (h : ∀ c ∈ value.take 11, c ≠ 'T') : parseRFC3339Chars value = none := by
  unfold parseRFC3339Chars
  split
  · rename_i y1 y2 y3 y4 c1 m1 m2 c2 d1 d2 c3 rest
    have hc3 : c3 ≠ 'T' := h c3 (by simp)
    simp [hc3]
  · rfl

/-- No string that `Time.String` produces is accepted by the RFC 3339 parse. -/
theorem timeParse_rejects_timeString (t : Time) :
    goTime.parseRFC3339 (goTime.timeString t) = none := by
  obtain ⟨hne, hlen⟩ := stamp_shape t
  simp only [goTime, timeParseRFC3339, Time.toGoString]
  apply parseRFC3339Chars_wants_T
  intro c hc
  rw [List.take_append_of_le_length hlen] at hc
  exact hne c (List.mem_of_mem_take hc)

/-- What a successful Read leaves in `object_lock_retain_until_date` for a
non-zero deadline `t` of the storage API is `t.String()`, and
`parseObjectLockDeadline` reads it as absent. -/
theorem read_deadline_not_reparsed (client : Client) (hist : List Call) (d : ObjectData)
    (stat : ObjectInfo) (mode : String) (t : Time) (tags : GoMap String)
    (hstat : client.StatObject hist (d.Get "bucket") (d.Get "key") = .ok stat)
    (hret : client.GetObjectRetention (hist ++ [.StatObject (d.Get "bucket") (d.Get "key")])
      (d.Get "bucket") (d.Get "key") "" = .ok (mode, t))
    (htags : client.GetObjectTagging (hist ++ [.StatObject (d.Get "bucket") (d.Get "key"),
      .GetObjectRetention (d.Get "bucket") (d.Get "key") ""])
      (d.Get "bucket") (d.Get "key") = .ok tags)
    (hnz : t.IsZero = false) :
    (resourceS3BucketObjectRead goTime client hist d).result = .nil ∧
    (resourceS3BucketObjectRead goTime client hist d).d.cur.object_lock_retain_until_date =
      t.toGoString ∧
    parseObjectLockDeadline goTime
      (resourceS3BucketObjectRead goTime client hist d).d.cur.object_lock_retain_until_date =
      none := by
  have hstored :
      (resourceS3BucketObjectRead goTime client hist d).d.cur.object_lock_retain_until_date =
        t.toGoString := by
    simp [resourceS3BucketObjectRead, hstat, hret, htags, hnz, ObjectData.Set, ObjectData.SetTags,
      ObjectAttrs.setStr, goTime]
  refine ⟨by simp [resourceS3BucketObjectRead, hstat, hret, htags], hstored, ?_⟩
  rw [hstored]
  have h : goTime.parseRFC3339 t.toGoString = none := timeParse_rejects_timeString t
  unfold parseObjectLockDeadline
  rw [h]

/-- After Read has stored the deadline 2031-01-01T00:00:00Z, an update that
lowers it to 2030-01-01T00:00:00Z sees no old deadline and issues the retention
update without the governance bypass. -/
theorem update_after_read_lowers_without_bypass :
    Time.toGoString ⟨64060588800000000000, 0⟩ = "2031-01-01 00:00:00 +0000 UTC" ∧
    parseObjectLockDeadline goTime
      deadlineLoweredAfterRead.old.object_lock_retain_until_date = none ∧
    (resourceS3BucketObjectUpdate sampleHost goTime sampleClient []
        deadlineLoweredAfterRead).calls.head? =
      some (.PutObjectRetention "b" "k"
        { GovernanceBypass := false, Mode := some "GOVERNANCE",
          RetainUntilDate := some ⟨64029052800000000000, 0⟩ }) := by
  decide

/-- C11, at the deadline 2030-01-01T00:00:00Z: Read stores it as
`2030-01-01 00:00:00 +0000 UTC`, which `parseObjectLockDeadline` reads as
absent, although the RFC 3339 form of the same instant parses to it. -/
theorem read_deadline_round_trip_fails :
    sampleClient.GetObjectRetention [.StatObject "b" "k"] "b" "k" "" =
      .ok ("GOVERNANCE", ⟨64029052800000000000, 0⟩) ∧
    (resourceS3BucketObjectRead goTime sampleClient [] objectInPlace).result = .nil ∧
    (resourceS3BucketObjectRead goTime sampleClient []
        objectInPlace).d.cur.object_lock_retain_until_date =
      "2030-01-01 00:00:00 +0000 UTC" ∧
    parseObjectLockDeadline goTime
      (resourceS3BucketObjectRead goTime sampleClient []
        objectInPlace).d.cur.object_lock_retain_until_date = none ∧
    parseObjectLockDeadline goTime "2030-01-01T00:00:00Z" =
      some ⟨64029052800000000000, 0⟩ := by
  have h := read_deadline_not_reparsed sampleClient [] objectInPlace ⟨"text/plain"⟩
    "GOVERNANCE" ⟨64029052800000000000, 0⟩ ∅ rfl rfl rfl (by decide)
  refine ⟨rfl, h.1, ?_, h.2.2, by decide⟩
  rw [h.2.1]
  decide

/-! ### Governance bypass on the state Read writes -/

/-- On the state Read writes, the old deadline is never seen: when the old
value is the string form of a deadline `t` and the new value parses, the
retention options carry no governance bypass, however early the new deadline
is. -/
theorem retention_no_bypass_after_read (d : ObjectData) (t n : Time)
    (hold : d.old.object_lock_retain_until_date = t.toGoString)
    (hnew : parseObjectLockDeadline goTime d.new.object_lock_retain_until_date = some n)
    (hchg : d.HasChange "object_lock_retain_until_date" = true) :
    (retentionOptions goTime d).GovernanceBypass = false := by
  have hrej : parseObjectLockDeadline goTime d.old.object_lock_retain_until_date = none := by
    have h : goTime.parseRFC3339 t.toGoString = none := timeParse_rejects_timeString t
    rw [hold]
    unfold parseObjectLockDeadline
    rw [h]
  cases hb : (retentionOptions goTime d).GovernanceBypass with
  | false => rfl
  | true =>
    rcases (retentionOptions_bypass goTime d hchg).mp hb with hnone | ⟨_, o, _, ho, _⟩
    · rw [hnew] at hnone; cases hnone
    · rw [hrej] at ho; cases ho

/-- C3, at a lowering on the state Read writes: Read stores the deadline
2031-01-01T00:00:00Z of the service as `2031-01-01 00:00:00 +0000 UTC`; the
update that lowers it to 2030-01-01T00:00:00Z, an earlier instant, reaches the
retention-update call (none of the eight attributes changed, the deadline
changed) and issues it without the governance bypass flag. -/
theorem update_lowering_after_read_no_bypass :
    (resourceS3BucketObjectRead goTime retainedUntil2031 []
        objectInPlace).d.cur.object_lock_retain_until_date =
      deadlineLoweredAfterRead.old.object_lock_retain_until_date ∧
    parseObjectLockDeadline goTime deadlineLoweredAfterRead.new.object_lock_retain_until_date =
      some ⟨64029052800000000000, 0⟩ ∧
    Time.Before ⟨64029052800000000000, 0⟩ ⟨64060588800000000000, 0⟩ = true ∧
    (∀ key ∈ reputKeys, deadlineLoweredAfterRead.HasChange key = false) ∧
    deadlineLoweredAfterRead.HasChange "object_lock_retain_until_date" = true ∧
    (resourceS3BucketObjectUpdate sampleHost goTime sampleClient []
        deadlineLoweredAfterRead).calls.head? =
      some (.PutObjectRetention "b" "k"
        { GovernanceBypass := false, Mode := some "GOVERNANCE",
          RetainUntilDate := some ⟨64029052800000000000, 0⟩ }) ∧
    (∀ c ∈ (resourceS3BucketObjectUpdate sampleHost goTime sampleClient []
        deadlineLoweredAfterRead).calls,
      c.isRetentionUpdate = true →
        c = .PutObjectRetention "b" "k"
          { GovernanceBypass := false, Mode := some "GOVERNANCE",
            RetainUntilDate := some ⟨64029052800000000000, 0⟩ }) := by
  decide

end S3
